import Mathlib

/-!
# Analysis client (`static/script.js`)

A shallow embedding of the browser-side client: the two submit operations
`uploadFile` and `analyzeText`, the render step `displayResults`, and
`showLoading` / `hideLoading`.

Modelling conventions.

* The page is a record of the style and content properties the script touches,
  together with a trace of the observable events (alerts, network requests,
  property assignments, scrolling) in program order.
* A JavaScript number is given by its exact value, a rational (`ℚ`); the numbers
  of a response are the values `JSON.parse` produced.  The one arithmetic
  operation of the script, the product in `metrics.comment_ratio * 100`, rounds
  its exact result to binary64 (`toDouble`).  `NaN` and the infinities only occur
  as the texts that formatting them gives.
* A JavaScript string is a Lean `String`.
* A field of the response that may be missing is an `Option`; `none` is
  JavaScript's `undefined`.  A field holding `null` or a value of another type
  than the response model gives it is not represented.
* The network is a function from the request to the outcome of `fetch` and of
  the subsequent `response.json()`.  One operation runs from start to end
  without interleaving with another one.
* `Number::toString` (used by template literals and by `toFixed` at and above
  `10^21`) is a parameter `numToString`.
-/

namespace AnalysisClient

/-! ## Strings -/

/-- `String.prototype.endsWith(suffix)`. -/
def endsWith (s suffix : String) : Bool :=
  suffix.data.isSuffixOf s.data

/-- White space and line terminators stripped by `String.prototype.trim`
(ECMAScript `WhiteSpace` and `LineTerminator`). -/
def isTrimChar (c : Char) : Bool :=
  let n := c.toNat
  n = 0x09 || n = 0x0A || n = 0x0B || n = 0x0C || n = 0x0D || n = 0x20 ||
  n = 0xA0 || n = 0x1680 || (0x2000 ≤ n && n ≤ 0x200A) || n = 0x2028 ||
  n = 0x2029 || n = 0x202F || n = 0x205F || n = 0x3000 || n = 0xFEFF

/-- `String.prototype.trim()`. -/
def trim (s : String) : String :=
  ⟨((s.data.dropWhile isTrimChar).reverse.dropWhile isTrimChar).reverse⟩

/-- Replace the first occurrence of the character `c` by `r`. -/
def replaceFirstChar (c r : Char) : List Char → List Char
  | [] => []
  | x :: xs => if x = c then r :: xs else x :: replaceFirstChar c r xs

/-- The call `s.replace('_', ' ')`: with a string pattern, `replace` substitutes
the first occurrence only. -/
def replaceUnderscore (s : String) : String :=
  ⟨replaceFirstChar '_' ' ' s.data⟩

/-- `Array.prototype.join('')` on an array of strings. -/
def join (xs : List String) : String :=
  xs.foldl (fun acc x => acc ++ x) ""

/-- ToBoolean on a possibly missing string: `undefined` and `""` are falsy. -/
def strTruthy : Option String → Bool
  | none => false
  | some s => s != ""

/-- ToBoolean on a possibly missing number: `undefined` and `0` are falsy. -/
def numTruthy : Option ℚ → Bool
  | none => false
  | some x => x != 0

/-! ## Numbers -/

/-- Decimal digits of `n`, most significant first, by repeated division;
`fuel` bounds the number of digits produced. -/
def digitsFuel : ℕ → ℕ → List Char
  | 0, _ => []
  | fuel + 1, n =>
    if n < 10 then [Nat.digitChar n]
    else digitsFuel fuel (n / 10) ++ [Nat.digitChar (n % 10)]

/-- The decimal representation of the natural number `n` (`"0"` for zero, no
leading zero otherwise). -/
def natToString (n : ℕ) : List Char :=
  digitsFuel (n + 1) n

/-- The integer nearest to `q`, the even one of two (round half to even). -/
def roundHalfEven (q : ℚ) : ℤ :=
  let f := ⌊q⌋
  if q - f < 1 / 2 then f
  else if 1 / 2 < q - f then f + 1
  else if f % 2 = 0 then f else f + 1

/-- The position of the highest set bit of `n`, by repeated halving; `fuel`
bounds the number of halvings. -/
def log2Fuel : ℕ → ℕ → ℕ
  | 0, _ => 0
  | fuel + 1, n => if n < 2 then 0 else log2Fuel fuel (n / 2) + 1

/-- The integer `k` with `2^k ≤ q < 2^(k+1)`, for positive `q`. -/
def floorLog2 (q : ℚ) : ℤ :=
  let k : ℤ := (log2Fuel q.num.toNat q.num.toNat : ℤ) - (log2Fuel q.den q.den : ℤ)
  if (2 : ℚ) ^ k ≤ q then k else k - 1

/-- Rounding of an exact value to IEEE 754 binary64, round to nearest, ties to
even: the magnitude is scaled so that it has 53 significant bits (exponent not
below `-1074`, the subnormal range), rounded to an integer and scaled back; a
result of `2^1024` or more is an infinity, given as `none`. -/
def toDouble (q : ℚ) : Option ℚ :=
  if q = 0 then some 0
  else
    let a := |q|
    let e := max (floorLog2 a - 52) (-1074)
    let v := (roundHalfEven (a / 2 ^ e) : ℚ) * 2 ^ e
    if (2 : ℚ) ^ (1024 : ℕ) ≤ v then none else some (if q < 0 then -v else v)

/-- `Number.prototype.toFixed(f)` on the exact value `x`.
Steps of the built-in: a negative `x` gives a leading `-` and is negated; at
`10^21` and above the result is `Number::toString(x)`; otherwise `n` is the
integer for which `n / 10^f - x` is as close to zero as possible, the larger one
of two, its digits are padded with zeros to at least `f + 1` and a point is put
before the last `f`. -/
def toFixed (numToString : ℚ → String) (f : ℕ) (x : ℚ) : String :=
  let s := if x < 0 then "-" else ""
  let x := if x < 0 then -x else x
  if (10 : ℚ) ^ 21 ≤ x then s ++ numToString x
  else
    let n := ⌊x * 10 ^ f + 1 / 2⌋.toNat
    let m := natToString n
    if f ≠ 0 then
      let k := m.length
      let m := if k ≤ f then List.replicate (f + 1 - k) '0' ++ m else m
      let k := if k ≤ f then f + 1 else k
      s ++ ⟨m.take (k - f)⟩ ++ "." ++ ⟨m.drop (k - f)⟩
    else s ++ ⟨m⟩

/-- The number written by a list of decimal digits. -/
def digitsValue (cs : List Char) : ℕ :=
  cs.foldl (fun acc c => 10 * acc + (c.toNat - 48)) 0

/-- A template-literal substitution of a possibly missing number. -/
def tplNum (numToString : ℚ → String) : Option ℚ → String
  | none => "undefined"
  | some x => numToString x

/-- A template-literal substitution of a possibly missing string. -/
def tplStr : Option String → String
  | none => "undefined"
  | some s => s

/-! ## JSON text of the request body -/

/-- The escape `\uXXXX` with four lower-case hexadecimal digits. -/
def unicodeEscape (n : ℕ) : List Char :=
  ['\\', 'u', Nat.digitChar (n / 4096 % 16), Nat.digitChar (n / 256 % 16),
    Nat.digitChar (n / 16 % 16), Nat.digitChar (n % 16)]

/-- One character inside a JSON string literal (ECMAScript `QuoteJSONString`). -/
def quoteJSONChar (c : Char) : List Char :=
  if c = '\x08' then ['\\', 'b']
  else if c = '\t' then ['\\', 't']
  else if c = '\n' then ['\\', 'n']
  else if c = '\x0c' then ['\\', 'f']
  else if c = '\r' then ['\\', 'r']
  else if c = '"' then ['\\', '"']
  else if c = '\\' then ['\\', '\\']
  else if c.toNat < 0x20 then unicodeEscape c.toNat
  else [c]

/-- ECMAScript `QuoteJSONString`. -/
def quoteJSONString (s : String) : String :=
  ⟨'"' :: (s.data.map quoteJSONChar).flatten ++ ['"']⟩

/-- The text `JSON.stringify({ code })`. -/
def stringifyCode (code : String) : String :=
  "\x7b\"code\":" ++ quoteJSONString code ++ "\x7d"

/-- The value of a hexadecimal digit. -/
def hexValue (c : Char) : ℕ :=
  if c.toNat < 58 then c.toNat - 48 else c.toNat - 87

/-- Reads back the first character of the inside of a JSON string literal. -/
def unquoteHead : List Char → Option (Char × List Char)
  | [] => none
  | c :: r =>
    if c = '\\' then
      match r with
      | 'u' :: _ :: _ :: a :: b :: r => some (Char.ofNat (hexValue a * 16 + hexValue b), r)
      | x :: r =>
        some (if x = 'b' then '\x08' else if x = 't' then '\t' else if x = 'n' then '\n'
          else if x = 'f' then '\x0c' else if x = 'r' then '\r' else x, r)
      | [] => none
    else some (c, r)

/-- The value of a hexadecimal digit of JSON text (either case). -/
def hexDigitValue (c : Char) : Option ℕ :=
  let n := c.toNat
  if 48 ≤ n ∧ n ≤ 57 then some (n - 48)
  else if 97 ≤ n ∧ n ≤ 102 then some (n - 87)
  else if 65 ≤ n ∧ n ≤ 70 then some (n - 55)
  else none

/-- The character named by a two-character escape of JSON text. -/
def unescape (c : Char) : Option Char :=
  if c = '"' then some '"'
  else if c = '\\' then some '\\'
  else if c = '/' then some '/'
  else if c = 'b' then some '\x08'
  else if c = 'f' then some '\x0c'
  else if c = 'n' then some '\n'
  else if c = 'r' then some '\r'
  else if c = 't' then some '\t'
  else none

/-- Where the reader of a JSON string stands: between characters, after a
backslash, or inside a `\u` escape with `remaining` digits to read. -/
inductive ReadState
  | plain
  | escape
  | hex (remaining value : ℕ)

/-- Reads the characters of a JSON string up to its closing quote, by the JSON
grammar: gives the text denoted and what follows the closing quote. -/
def readJsonString : ReadState → List Char → Option (List Char × List Char)
  | _, [] => none
  | .plain, c :: r =>
    if c = '"' then some ([], r)
    else if c = '\\' then readJsonString .escape r
    else if c.toNat < 0x20 then none
    else (readJsonString .plain r).map (fun x => (c :: x.1, x.2))
  | .escape, c :: r =>
    if c = 'u' then readJsonString (.hex 4 0) r
    else
      match unescape c with
      | some x => (readJsonString .plain r).map (fun y => (x :: y.1, y.2))
      | none => none
  | .hex k v, c :: r =>
    match hexDigitValue c with
    | none => none
    | some d =>
      if k ≤ 1 then
        (readJsonString .plain r).map (fun y => (Char.ofNat (v * 16 + d) :: y.1, y.2))
      else readJsonString (.hex (k - 1) (v * 16 + d)) r

/-- Reads JSON text that is an object with the single key `code` and a string
value, without insignificant white space: gives the string denoted. -/
def readCodeObject (s : String) : Option String :=
  if "\x7b\"code\":\"".data.isPrefixOf s.data then
    match readJsonString .plain (s.data.drop 9) with
    | some (t, ['\x7d']) => some ⟨t⟩
    | _ => none
  else none

/-! ## Response data -/

/-- The `ml_prediction` object of a response. -/
structure MlPrediction where
  quality_score : Option ℚ
  prediction : Option String
  confidence : Option ℚ
  rating : Option String

/-- The `metrics` object of a response; the error shape carries `error` and
`message`, the success shape the remaining fields. -/
structure Metrics where
  error : Option String
  message : Option String
  lines_of_code : Option ℚ
  logical_lines : Option ℚ
  comments : Option ℚ
  comment_ratio : Option ℚ
  num_functions : Option ℚ
  num_classes : Option ℚ
  avg_complexity : Option ℚ
  maintainability_index : Option ℚ
  code_smells : Option (List String)

/-- The parsed JSON body of an analysis response. -/
structure AnalysisResponse where
  overall_score : Option ℚ
  ml_prediction : Option MlPrediction
  metrics : Option Metrics
  suggestions : Option (List String)

/-! ## Page, events, network -/

/-- A file chosen in the file input. -/
structure File where
  name : String
  content : String
  deriving DecidableEq

/-- The body of a request. -/
inductive Body
  | formData (fields : List (String × File))
  | text (s : String)
  deriving DecidableEq

/-- A call of `fetch`. -/
structure Request where
  url : String
  method : String
  headers : List (String × String)
  body : Body
  deriving DecidableEq

/-- The elements whose `style.display` the script assigns. -/
inductive Panel
  | loading
  | results
  deriving DecidableEq

/-- The elements whose text or markup the script writes. -/
inductive Region
  | qualityScore
  | scoreGrade
  | codeMetrics
  | mlPrediction
  | suggestions
  | codeSmells
  deriving DecidableEq

/-- An observable step of the script. -/
inductive Event
  | alert (msg : String)
  | fetch (req : Request)
  | setDisplay (panel : Panel) (value : String)
  | write (region : Region) (content : String)
  | scrollIntoView
  deriving DecidableEq

/-- The page: current `style.display` of the two panels, current content of the
six result regions, and the events so far, oldest first. -/
structure Page where
  display : Panel → String
  content : Region → String
  trace : List Event

/-- A thrown JavaScript error. -/
structure JsError where
  message : String
  deriving DecidableEq

/-- The `TypeError` raised when a property is read from `undefined`
(message as worded by V8). -/
def typeError (property : String) : JsError :=
  ⟨"Cannot read properties of undefined (reading \'" ++ property ++ "\')"⟩

/-- The outcome of `response.json()`. -/
inductive JsonOutcome
  | rejected (e : JsError)
  | parsed (data : AnalysisResponse)

/-- The outcome of `fetch`: a rejection, or a response with its status and
what reading its body as JSON gives. -/
inductive FetchOutcome
  | rejected (e : JsError)
  | response (status : ℕ) (json : JsonOutcome)

/-- The `ok` property of a response: the status is in the range 200 to 299. -/
def responseOk (status : ℕ) : Bool :=
  200 ≤ status && status ≤ 299

/-- The alerts among a list of events, in order. -/
def alertsOf : List Event → List String
  | [] => []
  | .alert msg :: es => msg :: alertsOf es
  | _ :: es => alertsOf es

/-- The network requests among a list of events, in order. -/
def requestsOf : List Event → List Request
  | [] => []
  | .fetch req :: es => req :: requestsOf es
  | _ :: es => requestsOf es

/-- The regions written by a list of events, in order. -/
def writesOf : List Event → List Region
  | [] => []
  | .write r _ :: es => r :: writesOf es
  | _ :: es => writesOf es

/-- The `style.display` assignments among a list of events, in order. -/
def displaysOf : List Event → List (Panel × String)
  | [] => []
  | .setDisplay a v :: es => (a, v) :: displaysOf es
  | _ :: es => displaysOf es

/-! ## The script -/

/-- The constant `API_BASE`. -/
def API_BASE : String := ""

/-- Record an event. -/
def Page.emit (p : Page) (e : Event) : Page :=
  { p with trace := p.trace ++ [e] }

/-- The call `alert(msg)`. -/
def alert (msg : String) (p : Page) : Page :=
  p.emit (.alert msg)

/-- An assignment to `style.display` of a panel. -/
def setDisplay (panel : Panel) (value : String) (p : Page) : Page :=
  { p with display := Function.update p.display panel value,
           trace := p.trace ++ [.setDisplay panel value] }

/-- An assignment to `textContent` or `innerHTML` of a result region. -/
def setContent (region : Region) (value : String) (p : Page) : Page :=
  { p with content := Function.update p.content region value,
           trace := p.trace ++ [.write region value] }

/-- The function `showLoading`. -/
def showLoading (p : Page) : Page :=
  setDisplay .results "none" (setDisplay .loading "block" p)

/-- The function `hideLoading`. -/
def hideLoading (p : Page) : Page :=
  setDisplay .loading "none" p

/-- The value `data.overall_score || data.ml_prediction?.quality_score`. -/
def scoreOperand (data : AnalysisResponse) : Option ℚ :=
  if numTruthy data.overall_score then data.overall_score
  else data.ml_prediction.bind (fun ml => ml.quality_score)

/-- The constant `qualityScore` of `displayResults`:
`data.overall_score || data.ml_prediction?.quality_score || 0`. -/
def qualityScore (data : AnalysisResponse) : ℚ :=
  match scoreOperand data with
  | some x => if x ≠ 0 then x else 0
  | none => 0

/-- The text written to `scoreGrade`:
the template `Grade: ` followed by `data.ml_prediction?.rating || '-'`. -/
def gradeText (data : AnalysisResponse) : String :=
  let rating := data.ml_prediction.bind (fun ml => ml.rating)
  "Grade: " ++ (if strTruthy rating then tplStr rating else "-")

/-- The text of `(metrics.comment_ratio * 100).toFixed(1)`.  The product is the
binary64 product of the ratio and `100`; when it overflows, `toFixed` prints the
infinity.  A missing ratio multiplies to `NaN`, which `toFixed` prints as `NaN`. -/
def commentRatioText (numToString : ℚ → String) : Option ℚ → String
  | none => "NaN"
  | some r =>
    match toDouble (r * 100) with
    | some v => toFixed numToString 1 v
    | none => if r < 0 then "-Infinity" else "Infinity"

/-- The array `metricsHtml` of `displayResults` after its pushes. -/
def metricsHtml (numToString : ℚ → String) (metrics : Metrics) : List String :=
  if strTruthy metrics.error then
    ["<li style=\"color: red;\">❌ " ++ tplStr metrics.error ++ ": " ++
      tplStr metrics.message ++ "</li>"]
  else
    ["<li><strong>Lines of Code:</strong> " ++ tplNum numToString metrics.lines_of_code ++ "</li>",
     "<li><strong>Logical Lines:</strong> " ++ tplNum numToString metrics.logical_lines ++ "</li>",
     "<li><strong>Comments:</strong> " ++ tplNum numToString metrics.comments ++ "</li>",
     "<li><strong>Comment Ratio:</strong> " ++ commentRatioText numToString metrics.comment_ratio ++
       "%</li>",
     "<li><strong>Functions:</strong> " ++ tplNum numToString metrics.num_functions ++ "</li>",
     "<li><strong>Classes:</strong> " ++ tplNum numToString metrics.num_classes ++ "</li>"]

/-- The array `mlHtml` of `displayResults` after its pushes; calling `replace`
on a missing `prediction` throws. -/
def mlHtml (numToString : ℚ → String) (ml : MlPrediction) (metrics : Metrics) :
    Except JsError (List String) :=
  match ml.prediction with
  | none => .error (typeError "replace")
  | some prediction =>
    let first :=
      ["<li><strong>Quality Score:</strong> " ++ tplNum numToString ml.quality_score ++ "/100</li>",
       "<li><strong>Prediction:</strong> " ++ replaceUnderscore prediction ++ "</li>",
       "<li><strong>Confidence:</strong> " ++ tplNum numToString ml.confidence ++ "%</li>",
       "<li><strong>Grade:</strong> " ++ tplStr ml.rating ++ "</li>"]
    if !strTruthy metrics.error then
      .ok (first ++
        ["<li><strong>Avg Complexity:</strong> " ++ tplNum numToString metrics.avg_complexity ++
           "</li>",
         "<li><strong>Maintainability:</strong> " ++
           tplNum numToString metrics.maintainability_index ++ "</li>"])
    else .ok first

/-- The array `data.suggestions.map(...)` of list items. -/
def suggestionItems (suggestions : List String) : List String :=
  suggestions.map (fun s => "<li>" ++ s ++ "</li>")

/-- The markup written to `suggestions`: the joined items, or the placeholder
when that text is empty. -/
def suggestionsMarkup (suggestions : List String) : String :=
  let suggestionsHtml := join (suggestionItems suggestions)
  if suggestionsHtml != "" then suggestionsHtml else "<li>No suggestions - looks good!</li>"

/-- The array `smells.map(...)` of warning lines. -/
def smellItems (smells : List String) : List String :=
  smells.map (fun s => "<li>⚠️ " ++ s ++ "</li>")

/-- The constant `smellsHtml` of `displayResults`. -/
def smellsHtml (code_smells : Option (List String)) : String :=
  let smells := match code_smells with
    | some xs => xs
    | none => []
  if smells.length > 0 then join (smellItems smells)
  else "<li>✅ No code smells detected!</li>"

/-- The function `displayResults`; the second component is the error thrown,
`none` when the function runs to its end. -/
def displayResults (numToString : ℚ → String) (data : AnalysisResponse) (p : Page) :
    Page × Option JsError :=
  let p := hideLoading p
  let p := setDisplay .results "block" p
  let p := setContent .qualityScore (toFixed numToString 1 (qualityScore data)) p
  let p := setContent .scoreGrade (gradeText data) p
  match data.metrics with
  | none => (p, some (typeError "error"))
  | some metrics =>
    let p := setContent .codeMetrics (join (metricsHtml numToString metrics)) p
    match data.ml_prediction with
    | none => (p, some (typeError "quality_score"))
    | some ml =>
      match mlHtml numToString ml metrics with
      | .error e => (p, some e)
      | .ok lines =>
        let p := setContent .mlPrediction (join lines) p
        match data.suggestions with
        | none => (p, some (typeError "map"))
        | some suggestions =>
          let p := setContent .suggestions (suggestionsMarkup suggestions) p
          let p := setContent .codeSmells (smellsHtml metrics.code_smells) p
          (p.emit .scrollIntoView, none)

/-- The body of the `try` block of `uploadFile` and `analyzeText` once `fetch`
has settled: a response that is not `ok` throws `Error('Analysis failed')`,
otherwise the parsed body goes to `displayResults`. -/
def tryBlock (numToString : ℚ → String) (outcome : FetchOutcome) (p : Page) :
    Page × Option JsError :=
  match outcome with
  | .rejected e => (p, some e)
  | .response status json =>
    if !responseOk status then (p, some ⟨"Analysis failed"⟩)
    else
      match json with
      | .rejected e => (p, some e)
      | .parsed data => displayResults numToString data p

/-- The `catch` block of `uploadFile` and `analyzeText`. -/
def catchBlock (error : JsError) (p : Page) : Page :=
  hideLoading (alert ("Error analyzing code: " ++ error.message) p)

/-- The `try` / `catch` statement of `uploadFile` and `analyzeText`. -/
def tryCatch (numToString : ℚ → String) (outcome : FetchOutcome) (p : Page) : Page :=
  match tryBlock numToString outcome p with
  | (p, none) => p
  | (p, some error) => catchBlock error p

/-- The request issued by `uploadFile`. -/
def uploadRequest (file : File) : Request :=
  { url := API_BASE ++ "/api/analyze", method := "POST", headers := [],
    body := .formData [("file", file)] }

/-- The function `uploadFile`; `file` is `fileInput.files[0]`. -/
def uploadFile (numToString : ℚ → String) (server : Request → FetchOutcome)
    (file : Option File) (p : Page) : Page :=
  match file with
  | none => alert "Please select a Python file first!" p
  | some file =>
    if !endsWith file.name ".py" then alert "Please select a Python (.py) file!" p
    else
      let p := showLoading p
      let p := p.emit (.fetch (uploadRequest file))
      tryCatch numToString (server (uploadRequest file)) p

/-- The request issued by `analyzeText`. -/
def textRequest (code : String) : Request :=
  { url := API_BASE ++ "/api/analyze-text", method := "POST",
    headers := [("Content-Type", "application/json")],
    body := .text (stringifyCode code) }

/-- The function `analyzeText`; `value` is `codeInput.value`. -/
def analyzeText (numToString : ℚ → String) (server : Request → FetchOutcome)
    (value : String) (p : Page) : Page :=
  let code := trim value
  if code = "" then alert "Please paste some Python code first!" p
  else
    let p := showLoading p
    let p := p.emit (.fetch (textRequest code))
    tryCatch numToString (server (textRequest code)) p

/-- The events of `q` after those of `p`. -/
def newEvents (p q : Page) : List Event :=
  q.trace.drop p.trace.length


/-- The outcome of a request on which `displayResults` is called, from page `p`,
and runs to its end: a response with a status from 200 to 299 whose body parses
to data that `displayResults` renders without throwing. -/
def RendersCompletely (numToString : ℚ → String) (outcome : FetchOutcome) (p : Page) : Prop :=
  ∃ status data, outcome = .response status (.parsed data) ∧ 200 ≤ status ∧ status ≤ 299 ∧
    (displayResults numToString data p).2 = none

/-! ## Values used in worked examples -/

/-- `Number::toString` on the non-negative integers below `10^21`, where it is
the plain decimal representation; used as the number printer in examples. -/
def integerToString (x : ℚ) : String :=
  ⟨natToString ⌊x⌋.toNat⟩

/-- A page with nothing shown and no event yet. -/
def blankPage : Page :=
  { display := fun _ => "", content := fun _ => "", trace := [] }

/-- A server that answers every request with status 500. -/
def failingServer : Request → FetchOutcome :=
  fun _ => .response 500 (.rejected ⟨"Unexpected token"⟩)

/-- A complete success-shape response; its comment ratio is the binary64 number
nearest to `0.256`. -/
def sampleResponse : AnalysisResponse :=
  { overall_score := some (349 / 4),
    ml_prediction := some
      { quality_score := some 85, prediction := some "needs_major_improvement",
        confidence := some 92, rating := some "B" },
    metrics := some
      { error := none, message := none, lines_of_code := some 120, logical_lines := some 90,
        comments := some 10,
        comment_ratio := some (1152921504606847 / 4503599627370496), num_functions := some 4,
        num_classes := some 1, avg_complexity := some 3, maintainability_index := some 70,
        code_smells := some ["long function", "deep nesting"] },
    suggestions := some ["Add docstrings", ""] }

/-- A response whose `metrics` object is the error shape. -/
def errorShapeResponse : AnalysisResponse :=
  { sampleResponse with
    metrics := some
      { error := some "ParseError", message := some "bad syntax", lines_of_code := none,
        logical_lines := none, comments := none, comment_ratio := none, num_functions := none,
        num_classes := none, avg_complexity := none, maintainability_index := none,
        code_smells := none } }

/-- A malformed response: the `metrics` object is missing. -/
def malformedResponse : AnalysisResponse :=
  { sampleResponse with metrics := none }

/-- A response with `overall_score` equal to zero and an ML quality score of 42. -/
def zeroScoreResponse : AnalysisResponse :=
  { sampleResponse with
    overall_score := some 0,
    ml_prediction := some
      { quality_score := some 42, prediction := some "good", confidence := some 92,
        rating := some "B" } }

/-- A server that answers every request with status 200 and the given body. -/
def okServer (data : AnalysisResponse) : Request → FetchOutcome :=
  fun _ => .response 200 (.parsed data)

/-! ## Validation in `uploadFile` -/

theorem endsWith_iff (s suffix : String) :
    endsWith s suffix = true ↔ ∃ t : String, s = t ++ suffix := by
  unfold endsWith
  rw [List.isSuffixOf_iff_suffix]
  constructor
  · rintro ⟨t, ht⟩
    exact ⟨⟨t⟩, String.ext (by simp [ht])⟩
  · rintro ⟨t, rfl⟩
    exact ⟨t.data, by simp⟩

theorem alertsOf_append (xs ys : List Event) :
    alertsOf (xs ++ ys) = alertsOf xs ++ alertsOf ys := by
  induction xs with
  | nil => rfl
  | cons x xs ih => cases x <;> simp [alertsOf, ih]

theorem requestsOf_append (xs ys : List Event) :
    requestsOf (xs ++ ys) = requestsOf xs ++ requestsOf ys := by
  induction xs with
  | nil => rfl
  | cons x xs ih => cases x <;> simp [requestsOf, ih]

theorem writesOf_append (xs ys : List Event) :
    writesOf (xs ++ ys) = writesOf xs ++ writesOf ys := by
  induction xs with
  | nil => rfl
  | cons x xs ih => cases x <;> simp [writesOf, ih]

/-- What `displayResults` appends to the trace: no alert, no request. -/
theorem displayResults_trace (nts : ℚ → String) (data : AnalysisResponse) (p : Page) :
    ∃ es, (displayResults nts data p).1.trace = p.trace ++ es ∧
      alertsOf es = [] ∧ requestsOf es = [] ∧
      (Event.scrollIntoView ∈ es ↔ (displayResults nts data p).2 = none) := by
  unfold displayResults
  simp only [hideLoading, setDisplay, setContent, Page.emit, List.append_assoc]
  repeat' split
  all_goals
    refine ⟨_, rfl, ?_, ?_, ?_⟩ <;> simp [alertsOf, requestsOf]

/-- After `displayResults`, finished or not, the loading indicator is hidden. -/
theorem displayResults_loading (nts : ℚ → String) (data : AnalysisResponse) (p : Page) :
    (displayResults nts data p).1.display .loading = "none" := by
  unfold displayResults
  simp only [hideLoading, setDisplay, setContent, Page.emit]
  repeat' split
  all_goals simp [Function.update]

/-- The `try` block appends no alert and no request, and ends with the scroll
exactly when it does not throw. -/
theorem tryBlock_trace (nts : ℚ → String) (outcome : FetchOutcome) (p : Page) :
    ∃ es, (tryBlock nts outcome p).1.trace = p.trace ++ es ∧
      alertsOf es = [] ∧ requestsOf es = [] ∧
      (Event.scrollIntoView ∈ es ↔ (tryBlock nts outcome p).2 = none) := by
  unfold tryBlock
  split
  · exact ⟨[], by simp, rfl, rfl, by simp⟩
  · split
    · exact ⟨[], by simp, rfl, rfl, by simp⟩
    · split
      · exact ⟨[], by simp, rfl, rfl, by simp⟩
      · exact displayResults_trace nts _ p

/-- The `try` / `catch` statement: the loading indicator ends hidden, and either
the `try` block finished (scroll reached, no alert) or it threw `e` and the only
alert is the one of the `catch` block. -/
theorem tryCatch_spec (nts : ℚ → String) (outcome : FetchOutcome) (p : Page) :
    (tryCatch nts outcome p).display .loading = "none" ∧
    ∃ es, (tryCatch nts outcome p).trace = p.trace ++ es ∧ requestsOf es = [] ∧
      (((tryBlock nts outcome p).2 = none ∧ Event.scrollIntoView ∈ es ∧ alertsOf es = []) ∨
       (∃ e, (tryBlock nts outcome p).2 = some e ∧ Event.scrollIntoView ∉ es ∧
          alertsOf es = ["Error analyzing code: " ++ e.message])) := by
  obtain ⟨es, htr, hal, hrq, hsc⟩ := tryBlock_trace nts outcome p
  have hload : (tryBlock nts outcome p).2 = none →
      (tryBlock nts outcome p).1.display .loading = "none" := by
    unfold tryBlock
    split
    · simp
    · split
      · simp
      · split
        · simp
        · intro _; exact displayResults_loading nts _ p
  unfold tryCatch
  split
  · rename_i q hq
    rw [hq] at htr hsc hload
    refine ⟨hload rfl, es, htr, hrq, Or.inl ⟨by rw [hq], hsc.mpr rfl, hal⟩⟩
  · rename_i q e hq
    rw [hq] at htr hsc
    refine ⟨by simp [catchBlock, hideLoading, setDisplay, Function.update], ?_⟩
    refine ⟨es ++ [.alert ("Error analyzing code: " ++ e.message), .setDisplay .loading "none"],
      ?_, ?_, Or.inr ⟨e, by rw [hq], ?_, ?_⟩⟩
    · simp only [catchBlock, hideLoading, setDisplay, alert, Page.emit] at htr ⊢
      simp [htr]
    · simp [requestsOf_append, hrq, requestsOf]
    · have : Event.scrollIntoView ∉ es := fun h => by simpa using hsc.mp h
      simp [this]
    · simp [alertsOf_append, hal, alertsOf]

theorem error_alert_ne_first (m : String) :
    "Error analyzing code: " ++ m ≠ "Please select a Python file first!" := by
  intro h
  have := congrArg String.data h
  simp at this

theorem error_alert_ne_py (m : String) :
    "Error analyzing code: " ++ m ≠ "Please select a Python (.py) file!" := by
  intro h
  have := congrArg String.data h
  simp at this

theorem error_alert_ne_paste (m : String) :
    "Error analyzing code: " ++ m ≠ "Please paste some Python code first!" := by
  intro h
  have := congrArg String.data h
  simp at this

/-- What `uploadFile` does once the file has passed validation. -/
theorem uploadFile_accepted (nts : ℚ → String) (server : Request → FetchOutcome)
    (f : File) (p : Page) (h : endsWith f.name ".py" = true) :
    uploadFile nts server (some f) p =
      tryCatch nts (server (uploadRequest f)) ((showLoading p).emit (.fetch (uploadRequest f))) := by
  simp [uploadFile, h]

/-- What `analyzeText` does once the text has passed validation. -/
theorem analyzeText_accepted (nts : ℚ → String) (server : Request → FetchOutcome)
    (value : String) (p : Page) (h : trim value ≠ "") :
    analyzeText nts server value p =
      tryCatch nts (server (textRequest (trim value)))
        ((showLoading p).emit (.fetch (textRequest (trim value)))) := by
  simp [analyzeText, h]

/-- C4. When no file is selected, or the selected file's name does not end in
the suffix `.py` (compared character by character, so `a.PY`, `a.pyc` and `py`
are rejected), `uploadFile` changes nothing on the page and its only event is one
alert: no request, no assignment to the loading indicator or the results panel.
When the name ends in `.py`, exactly one request is issued, a POST to
`/api/analyze` carrying the file, and neither validation alert is shown. -/
theorem uploadFile_validation (nts : ℚ → String) (server : Request → FetchOutcome)
    (p : Page) :
    ((uploadFile nts server none p).display = p.display ∧
      (uploadFile nts server none p).content = p.content ∧
      (uploadFile nts server none p).trace =
        p.trace ++ [.alert "Please select a Python file first!"]) ∧
    (∀ f : File, (¬ ∃ t : String, f.name = t ++ ".py") →
      (uploadFile nts server (some f) p).display = p.display ∧
      (uploadFile nts server (some f) p).content = p.content ∧
      (uploadFile nts server (some f) p).trace =
        p.trace ++ [.alert "Please select a Python (.py) file!"]) ∧
    (∀ f : File, (∃ t : String, f.name = t ++ ".py") →
      ∃ es, (uploadFile nts server (some f) p).trace = p.trace ++ es ∧
        requestsOf es =
          [{ url := "/api/analyze", method := "POST", headers := [],
             body := .formData [("file", f)] }] ∧
        "Please select a Python file first!" ∉ alertsOf es ∧
        "Please select a Python (.py) file!" ∉ alertsOf es) ∧
    (¬ ∃ t : String, "a.PY" = t ++ ".py") ∧ (¬ ∃ t : String, "a.pyc" = t ++ ".py") ∧
    (¬ ∃ t : String, "py" = t ++ ".py") := by
  refine ⟨?_, ?_, ?_, ?_, ?_, ?_⟩
  · simp [uploadFile, alert, Page.emit]
  · intro f hf
    have h : endsWith f.name ".py" = false := by
      rw [← endsWith_iff] at hf
      simpa using hf
    simp [uploadFile, h, alert, Page.emit]
  · intro f hf
    have h : endsWith f.name ".py" = true := (endsWith_iff _ _).mpr hf
    rw [uploadFile_accepted nts server f p h]
    obtain ⟨-, es, htr, hrq, hal⟩ :=
      tryCatch_spec nts (server (uploadRequest f)) ((showLoading p).emit (.fetch (uploadRequest f)))
    refine ⟨[.setDisplay .loading "block", .setDisplay .results "none",
      .fetch (uploadRequest f)] ++ es, ?_, ?_, ?_, ?_⟩
    · rw [htr]
      simp [showLoading, setDisplay, Page.emit]
    · rw [requestsOf_append, hrq]
      simp [requestsOf, uploadRequest, API_BASE]
    · rw [alertsOf_append]
      rcases hal with ⟨-, -, h0⟩ | ⟨e, -, -, h1⟩
      · simp [h0, alertsOf]
      · simp [h1, alertsOf]
        exact (error_alert_ne_first _).symm
    · rw [alertsOf_append]
      rcases hal with ⟨-, -, h0⟩ | ⟨e, -, -, h1⟩
      · simp [h0, alertsOf]
      · simp [h1, alertsOf]
        exact (error_alert_ne_py _).symm
  · rw [← endsWith_iff]; decide
  · rw [← endsWith_iff]; decide
  · rw [← endsWith_iff]; decide

/-- C4, worked example: the file `a.PY` is rejected with one alert and nothing
else, the file `a.py` leads to exactly one request. -/
theorem uploadFile_validation_witness :
    (uploadFile integerToString failingServer (some ⟨"a.PY", "x = 1"⟩) blankPage).trace =
      [.alert "Please select a Python (.py) file!"] ∧
    ∃ es, (uploadFile integerToString failingServer (some ⟨"a.py", "x = 1"⟩) blankPage).trace =
        blankPage.trace ++ es ∧
      requestsOf es =
        [{ url := "/api/analyze", method := "POST", headers := [],
           body := .formData [("file", ⟨"a.py", "x = 1"⟩)] }] :=
  have h := uploadFile_validation integerToString failingServer blankPage
  ⟨(h.2.1 ⟨"a.PY", "x = 1"⟩ h.2.2.2.1).2.2,
   (h.2.2.1 ⟨"a.py", "x = 1"⟩ ⟨"a", by decide⟩).imp fun _ hes => ⟨hes.1, hes.2.1⟩⟩

/-! ## Validation in `analyzeText` -/

theorem newEvents_eq (p q : Page) (es : List Event) (h : q.trace = p.trace ++ es) :
    newEvents p q = es := by
  simp [newEvents, h]

theorem rev_dropWhile_eq_nil (f : Char → Bool) (l : List Char) :
    ((l.dropWhile f).reverse.dropWhile f).reverse = [] ↔ ∀ c ∈ l, f c = true := by
  rw [List.reverse_eq_nil_iff, List.dropWhile_eq_nil_iff]
  constructor
  · intro h
    have hnil : l.dropWhile f = [] := by
      cases hd : l.dropWhile f with
      | nil => rfl
      | cons a t =>
        have h1 : f a = true := h a (by simp [hd])
        have h2 := List.head_dropWhile_not f l (by simp [hd])
        simp [hd, h1] at h2
    exact List.dropWhile_eq_nil_iff.mp hnil
  · intro h
    have hnil : l.dropWhile f = [] := List.dropWhile_eq_nil_iff.mpr h
    simp [hnil]

/-- The trimmed text is empty exactly when every character of the text is white
space or a line terminator. -/
theorem trim_eq_empty_iff (s : String) :
    trim s = "" ↔ ∀ c ∈ s.data, isTrimChar c = true := by
  rw [← rev_dropWhile_eq_nil]
  unfold trim
  constructor
  · intro h
    simpa using congrArg String.data h
  · intro h
    exact String.ext (by simpa using h)

theorem hexValue_digitChar : ∀ x, x < 16 → hexValue (Nat.digitChar x) = x := by decide

theorem unquoteHead_quote (c : Char) (r : List Char) :
    unquoteHead (quoteJSONChar c ++ r) = some (c, r) := by
  unfold quoteJSONChar
  split_ifs with h1 h2 h3 h4 h5 h6 h7 h8
  · subst h1; rfl
  · subst h2; rfl
  · subst h3; rfl
  · subst h4; rfl
  · subst h5; rfl
  · subst h6; rfl
  · subst h7; rfl
  · have e1 := hexValue_digitChar (c.toNat / 16 % 16) (Nat.mod_lt _ (by norm_num))
    have e2 := hexValue_digitChar (c.toNat % 16) (Nat.mod_lt _ (by norm_num))
    have e3 : c.toNat / 16 % 16 * 16 + c.toNat % 16 = c.toNat := by omega
    simp [unicodeEscape, unquoteHead, e1, e2, e3]
  · simp [unquoteHead, h7]

theorem quoteJSONChar_prefix (c1 c2 : Char) (r1 r2 : List Char)
    (h : quoteJSONChar c1 ++ r1 = quoteJSONChar c2 ++ r2) : c1 = c2 ∧ r1 = r2 := by
  have := congrArg unquoteHead h
  simpa [unquoteHead_quote] using this

theorem quote_flatten_inj (l1 l2 : List Char)
    (h : (l1.map quoteJSONChar).flatten ++ ['"'] = (l2.map quoteJSONChar).flatten ++ ['"']) :
    l1 = l2 := by
  induction l1 generalizing l2 with
  | nil =>
    cases l2 with
    | nil => rfl
    | cons c t =>
      exfalso
      have := congrArg unquoteHead h
      simp only [List.map_cons, List.flatten_cons, List.append_assoc, unquoteHead_quote] at this
      simp [unquoteHead] at this
  | cons c t ih =>
    cases l2 with
    | nil =>
      exfalso
      have := congrArg unquoteHead h
      simp only [List.map_cons, List.flatten_cons, List.append_assoc, unquoteHead_quote] at this
      simp [unquoteHead] at this
    | cons c2 t2 =>
      simp only [List.map_cons, List.flatten_cons, List.append_assoc] at h
      obtain ⟨rfl, hr⟩ := quoteJSONChar_prefix _ _ _ _ h
      rw [ih t2 hr]

/-- Two texts with the same `JSON.stringify({ code })` are equal. -/
theorem stringifyCode_inj (a b : String) (h : stringifyCode a = stringifyCode b) : a = b := by
  have hd := congrArg String.data h
  simp only [stringifyCode, quoteJSONString, String.data_append, List.append_assoc] at hd
  have h1 := List.append_cancel_left hd
  simp only [List.cons_append, List.cons.injEq, true_and] at h1
  have h2 : ((a.data.map quoteJSONChar).flatten ++ ['"']) ++ ['\x7d'] =
      ((b.data.map quoteJSONChar).flatten ++ ['"']) ++ ['\x7d'] := by
    simpa using h1
  exact String.ext (quote_flatten_inj _ _ (List.append_cancel_right h2))

theorem hexDigitValue_digitChar : ∀ x, x < 16 → hexDigitValue (Nat.digitChar x) = some x := by
  decide

theorem readJsonString_quote (c : Char) (r : List Char) :
    readJsonString .plain (quoteJSONChar c ++ r) =
      (readJsonString .plain r).map (fun x => (c :: x.1, x.2)) := by
  unfold quoteJSONChar
  split_ifs with h1 h2 h3 h4 h5 h6 h7 h8
  · subst h1; rfl
  · subst h2; rfl
  · subst h3; rfl
  · subst h4; rfl
  · subst h5; rfl
  · subst h6; rfl
  · subst h7; rfl
  · have e0 : hexDigitValue (Nat.digitChar 0) = some 0 := by decide
    have e1 := hexDigitValue_digitChar (c.toNat / 16 % 16) (Nat.mod_lt _ (by norm_num))
    have e2 := hexDigitValue_digitChar (c.toNat % 16) (Nat.mod_lt _ (by norm_num))
    have d1 : c.toNat / 4096 % 16 = 0 := by omega
    have d2 : c.toNat / 256 % 16 = 0 := by omega
    have e3 : c.toNat / 16 % 16 * 16 + c.toNat % 16 = c.toNat := by omega
    simp [unicodeEscape, readJsonString, d1, d2, e0, e1, e2, e3]
  · simp [readJsonString, h6, h7, h8]

theorem readJsonString_quoted (l rest : List Char) :
    readJsonString .plain ((l.map quoteJSONChar).flatten ++ '"' :: rest) = some (l, rest) := by
  induction l with
  | nil => simp [readJsonString]
  | cons c t ih =>
    simp only [List.map_cons, List.flatten_cons, List.append_assoc]
    rw [readJsonString_quote, ih]
    rfl

theorem readCodeObject_stringifyCode (t : String) :
    readCodeObject (stringifyCode t) = some t := by
  have hd : (stringifyCode t).data =
      "\x7b\"code\":\"".data ++ ((t.data.map quoteJSONChar).flatten ++ '"' :: ['\x7d']) := by
    simp [stringifyCode, quoteJSONString]
  unfold readCodeObject
  rw [hd]
  have hp : "\x7b\"code\":\"".data.isPrefixOf
      ("\x7b\"code\":\"".data ++ ((t.data.map quoteJSONChar).flatten ++ '"' :: ['\x7d'])) = true := by
    rw [List.isPrefixOf_iff_prefix]
    exact List.prefix_append _ _
  rw [if_pos hp]
  have hdrop : ("\x7b\"code\":\"".data ++
      ((t.data.map quoteJSONChar).flatten ++ '"' :: ['\x7d'])).drop 9 =
      (t.data.map quoteJSONChar).flatten ++ '"' :: ['\x7d'] := by
    rw [List.drop_append_of_le_length (by decide)]
    rfl
  rw [hdrop, readJsonString_quoted]
  rfl

theorem dropWhile_head_not (f : Char → Bool) (l : List Char) (a : Char) (as : List Char)
    (h : l.dropWhile f = a :: as) : f a = false := by
  have := List.head_dropWhile_not f l (by simp [h])
  simp only [h, List.head_cons] at this
  simpa using this

theorem trim_decomposition (f : Char → Bool) (l : List Char) :
    ∃ pre post : List Char,
      l = pre ++ ((l.dropWhile f).reverse.dropWhile f).reverse ++ post ∧
      (∀ c ∈ pre, f c = true) ∧ (∀ c ∈ post, f c = true) ∧
      (∀ c, (((l.dropWhile f).reverse.dropWhile f).reverse).head? = some c → f c = false) ∧
      (∀ c, (((l.dropWhile f).reverse.dropWhile f).reverse).getLast? = some c → f c = false) := by
  have hl : l = l.takeWhile f ++ l.dropWhile f := (List.takeWhile_append_dropWhile f l).symm
  have hsplit : l.dropWhile f = ((l.dropWhile f).reverse.dropWhile f).reverse ++
      ((l.dropWhile f).reverse.takeWhile f).reverse := by
    have h2 := congrArg List.reverse (List.takeWhile_append_dropWhile f (l.dropWhile f).reverse)
    simp only [List.reverse_append, List.reverse_reverse] at h2
    exact h2.symm
  refine ⟨l.takeWhile f, ((l.dropWhile f).reverse.takeWhile f).reverse, ?_, ?_, ?_, ?_, ?_⟩
  · rw [List.append_assoc, ← hsplit]
    exact hl
  · intro c hc
    exact List.mem_takeWhile_imp hc
  · intro c hc
    exact List.mem_takeWhile_imp (List.mem_reverse.mp hc)
  · intro c hc
    generalize hd : l.dropWhile f = d at hsplit hc
    generalize hp : (d.reverse.takeWhile f).reverse = post at hsplit
    generalize ht : (d.reverse.dropWhile f).reverse = t at hsplit hc
    cases t with
    | nil => simp at hc
    | cons a as =>
      simp only [List.head?_cons, Option.some.injEq] at hc
      subst hc
      exact dropWhile_head_not f l a (as ++ post) (by rw [hd, hsplit]; rfl)
  · intro c hc
    rw [List.getLast?_reverse] at hc
    cases hdw : (l.dropWhile f).reverse.dropWhile f with
    | nil => simp [hdw] at hc
    | cons a as =>
      simp only [hdw, List.head?_cons, Option.some.injEq] at hc
      subst hc
      exact dropWhile_head_not f _ a as hdw

/-- C5. `analyzeText` shows the validation alert, issues no request and leaves
the loading indicator and the page untouched exactly when the trimmed text is
empty, that is when the text consists of white space only.  The trimmed text is
what remains of the text between a leading and a trailing run of white space,
and neither starts nor ends with white space.  When it is not empty, exactly one
request is issued, a POST to `/api/analyze-text` with a JSON content type; its
body is JSON text that reads back, by the JSON grammar, as the object with the
single key `code` holding the trimmed text, and it is the serialisation of no
other text, so not of the untrimmed input when trimming changed it. -/
theorem analyzeText_validation (nts : ℚ → String) (server : Request → FetchOutcome)
    (value : String) (p : Page) :
    (trim value = "" ↔ ∀ c ∈ value.data, isTrimChar c = true) ∧
    (∃ pre post : List Char,
      value.data = pre ++ (trim value).data ++ post ∧
      (∀ c ∈ pre, isTrimChar c = true) ∧ (∀ c ∈ post, isTrimChar c = true) ∧
      (∀ c, (trim value).data.head? = some c → isTrimChar c = false) ∧
      (∀ c, (trim value).data.getLast? = some c → isTrimChar c = false)) ∧
    (trim value = "" →
      (analyzeText nts server value p).display = p.display ∧
      (analyzeText nts server value p).content = p.content ∧
      (analyzeText nts server value p).trace =
        p.trace ++ [.alert "Please paste some Python code first!"]) ∧
    (trim value ≠ "" →
      ∃ es body, (analyzeText nts server value p).trace = p.trace ++ es ∧
        requestsOf es =
          [{ url := "/api/analyze-text", method := "POST",
             headers := [("Content-Type", "application/json")],
             body := .text body }] ∧
        body = stringifyCode (trim value) ∧
        readCodeObject body = some (trim value) ∧
        (∀ other : String, readCodeObject body = some other → other = trim value) ∧
        "Please paste some Python code first!" ∉ alertsOf es) ∧
    ((requestsOf (newEvents p (analyzeText nts server value p)) = [] ∧
        alertsOf (newEvents p (analyzeText nts server value p)) =
          ["Please paste some Python code first!"] ∧
        displaysOf (newEvents p (analyzeText nts server value p)) = []) ↔ trim value = "") ∧
    (∀ other : String, stringifyCode (trim value) = stringifyCode other → other = trim value) ∧
    (∀ text : String, readCodeObject (stringifyCode text) = some text) ∧
    (∀ c : Char, isTrimChar c = true ↔
      c.toNat ∈ [0x09, 0x0A, 0x0B, 0x0C, 0x0D, 0x20, 0xA0, 0x1680] ∨
      (0x2000 ≤ c.toNat ∧ c.toNat ≤ 0x200A) ∨
      c.toNat ∈ [0x2028, 0x2029, 0x202F, 0x205F, 0x3000, 0xFEFF]) := by
  have hempty : trim value = "" →
      (analyzeText nts server value p).display = p.display ∧
      (analyzeText nts server value p).content = p.content ∧
      (analyzeText nts server value p).trace =
        p.trace ++ [.alert "Please paste some Python code first!"] := by
    intro h
    simp [analyzeText, h, alert, Page.emit]
  have hne : trim value ≠ "" →
      ∃ es body, (analyzeText nts server value p).trace = p.trace ++ es ∧
        requestsOf es =
          [{ url := "/api/analyze-text", method := "POST",
             headers := [("Content-Type", "application/json")],
             body := .text body }] ∧
        body = stringifyCode (trim value) ∧
        readCodeObject body = some (trim value) ∧
        (∀ other : String, readCodeObject body = some other → other = trim value) ∧
        "Please paste some Python code first!" ∉ alertsOf es := by
    intro h
    rw [analyzeText_accepted nts server value p h]
    obtain ⟨-, es, htr, hrq, hal⟩ := tryCatch_spec nts (server (textRequest (trim value)))
      ((showLoading p).emit (.fetch (textRequest (trim value))))
    refine ⟨[.setDisplay .loading "block", .setDisplay .results "none",
      .fetch (textRequest (trim value))] ++ es, stringifyCode (trim value), ?_, ?_, rfl,
      readCodeObject_stringifyCode _, ?_, ?_⟩
    · rw [htr]
      simp [showLoading, setDisplay, Page.emit]
    · rw [requestsOf_append, hrq]
      simp [requestsOf, textRequest, API_BASE]
    · intro other ho
      rw [readCodeObject_stringifyCode] at ho
      exact (Option.some.inj ho).symm
    · rw [alertsOf_append]
      rcases hal with ⟨-, -, h0⟩ | ⟨e, -, -, h1⟩
      · simp [h0, alertsOf]
      · simp [h1, alertsOf]
        exact (error_alert_ne_paste _).symm
  refine ⟨trim_eq_empty_iff value, trim_decomposition isTrimChar value.data, hempty, hne, ?_, ?_,
    readCodeObject_stringifyCode, ?_⟩
  · constructor
    · intro h
      by_contra hc
      obtain ⟨es, body, htr, hrq, -⟩ := hne hc
      rw [newEvents_eq _ _ es htr, hrq] at h
      simp at h
    · intro h
      rw [newEvents_eq _ _ _ (hempty h).2.2]
      simp [requestsOf, alertsOf, displaysOf]
  · intro other h
    exact (stringifyCode_inj _ _ h).symm
  · intro c
    simp only [isTrimChar, Bool.or_eq_true, Bool.and_eq_true, decide_eq_true_eq, List.mem_cons,
      List.mem_singleton, List.not_mem_nil, or_false, or_assoc]

/-- C5, worked example: a text with surrounding blanks, a quoted string, a
newline and a tab inside is sent trimmed, with the quotes, the newline and the
tab escaped; and blanks alone are rejected. -/
theorem analyzeText_validation_witness :
    (∃ es, (analyzeText integerToString failingServer "  print(\"hi\")\n\tx = 1 \n"
          blankPage).trace = blankPage.trace ++ es ∧
      requestsOf es =
        [{ url := "/api/analyze-text", method := "POST",
           headers := [("Content-Type", "application/json")],
           body := .text "\x7b\"code\":\"print(\\\"hi\\\")\\n\\tx = 1\"\x7d" }]) ∧
    (analyzeText integerToString failingServer " \t\n" blankPage).trace =
      [.alert "Please paste some Python code first!"] := by
  refine ⟨?_, ((analyzeText_validation integerToString failingServer " \t\n" blankPage).2.2.1
      (by decide)).2.2⟩
  obtain ⟨es, body, htr, hrq, hbody, -⟩ :=
    (analyzeText_validation integerToString failingServer "  print(\"hi\")\n\tx = 1 \n"
      blankPage).2.2.2.1 (by decide)
  refine ⟨es, htr, ?_⟩
  rw [hrq, hbody]
  decide

/-! ## Failure handling -/

/-- The `try` / `catch` statement on a response whose status is outside 200 to
299. -/
theorem tryCatch_non2xx (nts : ℚ → String) (status : ℕ) (json : JsonOutcome) (p : Page)
    (hstatus : status < 200 ∨ 299 < status) :
    tryCatch nts (.response status json) p =
      hideLoading (alert "Error analyzing code: Analysis failed" p) := by
  have h : responseOk status = false := by
    simp only [responseOk, Bool.and_eq_false_iff, decide_eq_false_iff_not]
    omega
  simp only [tryCatch, tryBlock, h, catchBlock]
  rfl

/-- C6. After validation has passed, a response with a status outside 200 to 299
makes `uploadFile` and `analyzeText` end, from any page, with the loading
indicator hidden, the results container at display `none`, the content of the
six result regions as before with no write to any of them, and exactly one
alert, `Error analyzing code: Analysis failed`. -/
theorem non2xx_response (nts : ℚ → String) (server : Request → FetchOutcome) (p : Page)
    (status : ℕ) (json : JsonOutcome) (hstatus : status < 200 ∨ 299 < status) :
    (∀ f : File, endsWith f.name ".py" = true →
      server (uploadRequest f) = .response status json →
      (uploadFile nts server (some f) p).display .loading = "none" ∧
      (uploadFile nts server (some f) p).display .results = "none" ∧
      (uploadFile nts server (some f) p).content = p.content ∧
      (uploadFile nts server (some f) p).trace = p.trace ++
        [.setDisplay .loading "block", .setDisplay .results "none", .fetch (uploadRequest f),
         .alert "Error analyzing code: Analysis failed", .setDisplay .loading "none"] ∧
      writesOf (newEvents p (uploadFile nts server (some f) p)) = [] ∧
      alertsOf (newEvents p (uploadFile nts server (some f) p)) =
        ["Error analyzing code: Analysis failed"]) ∧
    (∀ value : String, trim value ≠ "" →
      server (textRequest (trim value)) = .response status json →
      (analyzeText nts server value p).display .loading = "none" ∧
      (analyzeText nts server value p).display .results = "none" ∧
      (analyzeText nts server value p).content = p.content ∧
      (analyzeText nts server value p).trace = p.trace ++
        [.setDisplay .loading "block", .setDisplay .results "none",
         .fetch (textRequest (trim value)),
         .alert "Error analyzing code: Analysis failed", .setDisplay .loading "none"] ∧
      writesOf (newEvents p (analyzeText nts server value p)) = [] ∧
      alertsOf (newEvents p (analyzeText nts server value p)) =
        ["Error analyzing code: Analysis failed"]) := by
  constructor
  · intro f hf hs
    rw [uploadFile_accepted nts server f p hf, hs, tryCatch_non2xx nts status json _ hstatus]
    have htr : (hideLoading (alert "Error analyzing code: Analysis failed"
        ((showLoading p).emit (.fetch (uploadRequest f))))).trace = p.trace ++
        [.setDisplay .loading "block", .setDisplay .results "none", .fetch (uploadRequest f),
         .alert "Error analyzing code: Analysis failed", .setDisplay .loading "none"] := by
      simp [hideLoading, alert, showLoading, setDisplay, Page.emit]
    refine ⟨?_, ?_, ?_, htr, ?_, ?_⟩
    · simp [hideLoading, setDisplay]
    · simp [hideLoading, alert, showLoading, setDisplay, Page.emit, Function.update]
    · simp [hideLoading, alert, showLoading, setDisplay, Page.emit]
    · rw [newEvents_eq _ _ _ htr]; simp [writesOf]
    · rw [newEvents_eq _ _ _ htr]; simp [alertsOf]
  · intro value hv hs
    rw [analyzeText_accepted nts server value p hv, hs, tryCatch_non2xx nts status json _ hstatus]
    have htr : (hideLoading (alert "Error analyzing code: Analysis failed"
        ((showLoading p).emit (.fetch (textRequest (trim value)))))).trace = p.trace ++
        [.setDisplay .loading "block", .setDisplay .results "none",
         .fetch (textRequest (trim value)),
         .alert "Error analyzing code: Analysis failed", .setDisplay .loading "none"] := by
      simp [hideLoading, alert, showLoading, setDisplay, Page.emit]
    refine ⟨?_, ?_, ?_, htr, ?_, ?_⟩
    · simp [hideLoading, setDisplay]
    · simp [hideLoading, alert, showLoading, setDisplay, Page.emit, Function.update]
    · simp [hideLoading, alert, showLoading, setDisplay, Page.emit]
    · rw [newEvents_eq _ _ _ htr]; simp [writesOf]
    · rw [newEvents_eq _ _ _ htr]; simp [alertsOf]

/-- C6, worked example: status 500 on the upload of `a.py` and on the text `x`. -/
theorem non2xx_response_witness :
    alertsOf (newEvents blankPage
        (uploadFile integerToString failingServer (some ⟨"a.py", "x = 1"⟩) blankPage)) =
      ["Error analyzing code: Analysis failed"] ∧
    (analyzeText integerToString failingServer "x" blankPage).display .results = "none" :=
  have h := non2xx_response integerToString failingServer blankPage 500
    (.rejected ⟨"Unexpected token"⟩) (Or.inr (by decide))
  ⟨(h.1 ⟨"a.py", "x = 1"⟩ (by decide) rfl).2.2.2.2.2, (h.2 "x" (by decide) rfl).2.1⟩

/-- The `try` block finishes without throwing exactly on the outcomes that
`displayResults` renders completely. -/
theorem tryBlock_none_iff (nts : ℚ → String) (outcome : FetchOutcome) (p : Page) :
    (tryBlock nts outcome p).2 = none ↔ RendersCompletely nts outcome p := by
  unfold RendersCompletely tryBlock
  cases outcome with
  | rejected e => simp
  | response status json =>
    by_cases hok : responseOk status = true
    · have hr : 200 ≤ status ∧ status ≤ 299 := by
        simpa [responseOk] using hok
      cases json with
      | rejected e => simp [hok]
      | parsed data =>
        simp only [hok, Bool.not_true, Bool.false_eq_true, if_false]
        constructor
        · intro h
          exact ⟨status, data, rfl, hr.1, hr.2, h⟩
        · rintro ⟨s', d', heq, -, -, h⟩
          cases heq
          exact h
    · have hr : ¬ (200 ≤ status ∧ status ≤ 299) := by
        simpa [responseOk] using hok
      simp only [Bool.not_eq_true] at hok
      simp only [hok, Bool.not_false, if_true]
      constructor
      · intro h
        cases h
      · rintro ⟨s', d', heq, h1, h2, -⟩
        cases heq
        exact absurd ⟨h1, h2⟩ hr

/-- C10. After validation has passed, whatever the request gives (a rejected
`fetch`, a status outside 200 to 299, a body that does not parse, data rendered
completely, data on which `displayResults` throws part-way), `uploadFile` and
`analyzeText` end with the loading indicator hidden, and exactly one of two
things happened: `displayResults` ran to its end (its final scroll is in the
trace) and no alert was shown, or it did not and exactly one alert, beginning
`Error analyzing code: `, was shown. -/
theorem loading_hidden_one_outcome (nts : ℚ → String) (server : Request → FetchOutcome)
    (p : Page) :
    (∀ f : File, endsWith f.name ".py" = true →
      (uploadFile nts server (some f) p).display .loading = "none" ∧
      ∃ es, (uploadFile nts server (some f) p).trace = p.trace ++ es ∧
        ((RendersCompletely nts (server (uploadRequest f))
              ((showLoading p).emit (.fetch (uploadRequest f))) ∧
            Event.scrollIntoView ∈ es ∧ alertsOf es = []) ∨
         (¬ RendersCompletely nts (server (uploadRequest f))
              ((showLoading p).emit (.fetch (uploadRequest f))) ∧
            Event.scrollIntoView ∉ es ∧
            ∃ msg, alertsOf es = ["Error analyzing code: " ++ msg]))) ∧
    (∀ value : String, trim value ≠ "" →
      (analyzeText nts server value p).display .loading = "none" ∧
      ∃ es, (analyzeText nts server value p).trace = p.trace ++ es ∧
        ((RendersCompletely nts (server (textRequest (trim value)))
              ((showLoading p).emit (.fetch (textRequest (trim value)))) ∧
            Event.scrollIntoView ∈ es ∧ alertsOf es = []) ∨
         (¬ RendersCompletely nts (server (textRequest (trim value)))
              ((showLoading p).emit (.fetch (textRequest (trim value)))) ∧
            Event.scrollIntoView ∉ es ∧
            ∃ msg, alertsOf es = ["Error analyzing code: " ++ msg]))) := by
  have key : ∀ (req : Request),
      (tryCatch nts (server req) ((showLoading p).emit (.fetch req))).display .loading = "none" ∧
      ∃ es, (tryCatch nts (server req) ((showLoading p).emit (.fetch req))).trace = p.trace ++ es ∧
        ((RendersCompletely nts (server req) ((showLoading p).emit (.fetch req)) ∧
            Event.scrollIntoView ∈ es ∧ alertsOf es = []) ∨
         (¬ RendersCompletely nts (server req) ((showLoading p).emit (.fetch req)) ∧
            Event.scrollIntoView ∉ es ∧
            ∃ msg, alertsOf es = ["Error analyzing code: " ++ msg])) := by
    intro req
    obtain ⟨hl, es, htr, -, hcase⟩ := tryCatch_spec nts (server req) ((showLoading p).emit (.fetch req))
    refine ⟨hl, [.setDisplay .loading "block", .setDisplay .results "none", .fetch req] ++ es,
      ?_, ?_⟩
    · rw [htr]
      simp [showLoading, setDisplay, Page.emit]
    · rcases hcase with ⟨hnone, hsc, hal⟩ | ⟨e, hsome, hsc, hal⟩
      · left
        refine ⟨(tryBlock_none_iff _ _ _).mp hnone, by simp [hsc], ?_⟩
        rw [alertsOf_append, hal]
        simp [alertsOf]
      · right
        refine ⟨fun hc => ?_, by simp [hsc], e.message, ?_⟩
        · rw [(tryBlock_none_iff _ _ _).mpr hc] at hsome
          cases hsome
        · rw [alertsOf_append, hal]
          simp [alertsOf]
  constructor
  · intro f hf
    rw [uploadFile_accepted nts server f p hf]
    exact key (uploadRequest f)
  · intro value hv
    rw [analyzeText_accepted nts server value p hv]
    exact key (textRequest (trim value))

/-- C10, worked example: a malformed body (no `metrics`) answered to the upload
of `a.py` leaves the loading indicator hidden. -/
theorem loading_hidden_one_outcome_witness :
    (uploadFile integerToString (okServer malformedResponse) (some ⟨"a.py", "x = 1"⟩)
      blankPage).display .loading = "none" ∧
    (analyzeText integerToString (okServer sampleResponse) "x" blankPage).display .loading =
      "none" :=
  ⟨((loading_hidden_one_outcome integerToString (okServer malformedResponse) blankPage).1
      ⟨"a.py", "x = 1"⟩ (by decide)).1,
   ((loading_hidden_one_outcome integerToString (okServer sampleResponse) blankPage).2
      "x" (by decide)).1⟩

/-! ## What `displayResults` writes -/

theorem displayResults_qualityScore (nts : ℚ → String) (data : AnalysisResponse) (p : Page) :
    (displayResults nts data p).1.content .qualityScore = toFixed nts 1 (qualityScore data) := by
  unfold displayResults
  simp only [hideLoading, setDisplay, setContent, Page.emit]
  repeat' split
  all_goals simp [Function.update]

theorem displayResults_codeMetrics (nts : ℚ → String) (data : AnalysisResponse) (p : Page)
    (m : Metrics) (hm : data.metrics = some m) :
    (displayResults nts data p).1.content .codeMetrics = join (metricsHtml nts m) := by
  unfold displayResults
  simp only [hideLoading, setDisplay, setContent, Page.emit, hm]
  repeat' split
  all_goals simp [Function.update]

theorem displayResults_mlPrediction (nts : ℚ → String) (data : AnalysisResponse) (p : Page)
    (m : Metrics) (ml : MlPrediction) (lines : List String) (hm : data.metrics = some m)
    (hml : data.ml_prediction = some ml) (hl : mlHtml nts ml m = .ok lines) :
    (displayResults nts data p).1.content .mlPrediction = join lines := by
  unfold displayResults
  simp only [hideLoading, setDisplay, setContent, Page.emit, hm, hml, hl]
  repeat' split
  all_goals simp [Function.update]

theorem mlHtml_ok (nts : ℚ → String) (ml : MlPrediction) (m : Metrics) (pred : String)
    (hp : ml.prediction = some pred) :
    mlHtml nts ml m = .ok
      (["<li><strong>Quality Score:</strong> " ++ tplNum nts ml.quality_score ++ "/100</li>",
        "<li><strong>Prediction:</strong> " ++ replaceUnderscore pred ++ "</li>",
        "<li><strong>Confidence:</strong> " ++ tplNum nts ml.confidence ++ "%</li>",
        "<li><strong>Grade:</strong> " ++ tplStr ml.rating ++ "</li>"] ++
       (if strTruthy m.error = true then []
        else
          ["<li><strong>Avg Complexity:</strong> " ++ tplNum nts m.avg_complexity ++ "</li>",
           "<li><strong>Maintainability:</strong> " ++ tplNum nts m.maintainability_index ++
             "</li>"])) := by
  unfold mlHtml
  simp only [hp]
  cases strTruthy m.error <;> simp

theorem displayResults_finished (nts : ℚ → String) (data : AnalysisResponse) (p : Page)
    (m : Metrics) (ml : MlPrediction) (pred : String) (sugg : List String)
    (hm : data.metrics = some m) (hml : data.ml_prediction = some ml)
    (hp : ml.prediction = some pred) (hs : data.suggestions = some sugg) :
    (displayResults nts data p).1.content .suggestions = suggestionsMarkup sugg ∧
    (displayResults nts data p).1.content .codeSmells = smellsHtml m.code_smells ∧
    (displayResults nts data p).2 = none := by
  unfold displayResults
  simp only [hideLoading, setDisplay, setContent, Page.emit, hm, hml, hs,
    mlHtml_ok nts ml m pred hp]
  simp [Function.update]

/-! ## One-decimal formatting -/

theorem digitsFuel_eq (n : ℕ) : ∀ fuel, n < fuel → digitsFuel fuel n = digitsFuel (n + 1) n := by
  induction n using Nat.strong_induction_on with
  | _ n ih =>
    intro fuel h
    obtain ⟨f, rfl⟩ : ∃ f, fuel = f + 1 := ⟨fuel - 1, by omega⟩
    simp only [digitsFuel]
    by_cases h10 : n < 10
    · simp [h10]
    · simp only [h10, if_false]
      have hlt : n / 10 < n := by omega
      rw [ih (n / 10) hlt f (by omega), ih (n / 10) hlt n hlt]

theorem natToString_lt_ten (n : ℕ) (h : n < 10) : natToString n = [Nat.digitChar n] := by
  simp [natToString, digitsFuel, h]

theorem natToString_ge_ten (n : ℕ) (h : 10 ≤ n) :
    natToString n = natToString (n / 10) ++ [Nat.digitChar (n % 10)] := by
  have h10 : ¬ n < 10 := by omega
  unfold natToString
  rw [digitsFuel, if_neg h10, digitsFuel_eq (n / 10) n (by omega)]

theorem natToString_ne_nil (n : ℕ) : natToString n ≠ [] := by
  by_cases h : n < 10
  · simp [natToString_lt_ten n h]
  · simp [natToString_ge_ten n (by omega)]

theorem digitChar_isDigit : ∀ d, d < 10 → (Nat.digitChar d).isDigit = true ∧
    (Nat.digitChar d).toNat - 48 = d := by decide

theorem natToString_digits (n : ℕ) :
    (∀ c ∈ natToString n, c.isDigit = true) ∧ digitsValue (natToString n) = n := by
  induction n using Nat.strong_induction_on with
  | _ n ih =>
    by_cases h : n < 10
    · rw [natToString_lt_ten n h]
      have := digitChar_isDigit n h
      simp [digitsValue, this]
    · rw [natToString_ge_ten n (by omega)]
      obtain ⟨h1, h2⟩ := ih (n / 10) (by omega)
      have := digitChar_isDigit (n % 10) (Nat.mod_lt _ (by norm_num))
      constructor
      · intro c hc
        rcases List.mem_append.mp hc with hc | hc
        · exact h1 c hc
        · simp at hc; rw [hc]; exact this.1
      · unfold digitsValue at h2 ⊢
        rw [List.foldl_append, h2]
        simp [this.2]
        omega

theorem toFixed_one (nts : ℚ → String) (x : ℚ) (h0 : 0 ≤ x) (hlt : x < 10 ^ 21) :
    toFixed nts 1 x =
      ⟨natToString (⌊x * 10 + 1 / 2⌋.toNat / 10) ++
        '.' :: [Nat.digitChar (⌊x * 10 + 1 / 2⌋.toNat % 10)]⟩ := by
  have hneg : ¬ x < 0 := not_lt.mpr h0
  have hbig : ¬ (10 : ℚ) ^ 21 ≤ x := not_le.mpr hlt
  simp only [toFixed, hneg, if_false, hbig, pow_one, ne_eq, one_ne_zero, not_false_eq_true, if_true]
  generalize ⌊x * 10 + 1 / 2⌋.toNat = n
  apply String.ext
  by_cases h : n < 10
  · rw [natToString_lt_ten n h]
    have hd : n / 10 = 0 := by omega
    have hm : n % 10 = n := by omega
    rw [hd, hm, natToString_lt_ten 0 (by norm_num)]
    simp
    rfl
  · have hge : 10 ≤ n := by omega
    rw [natToString_ge_ten n hge]
    have hlen : 1 ≤ (natToString (n / 10)).length :=
      List.length_pos.mpr (natToString_ne_nil _)
    have hk : ¬ ((natToString (n / 10) ++ [Nat.digitChar (n % 10)]).length ≤ 1) := by
      simp only [List.length_append, List.length_singleton]; omega
    simp only [hk, if_false]
    simp

theorem nearest_tenth (x : ℚ) (h0 : 0 ≤ x) (m : ℤ) :
    |((⌊x * 10 + 1 / 2⌋.toNat : ℕ) : ℚ) / 10 - x| ≤ |(m : ℚ) / 10 - x| ∧
    (|(m : ℚ) / 10 - x| = |((⌊x * 10 + 1 / 2⌋.toNat : ℕ) : ℚ) / 10 - x| →
      m ≤ (⌊x * 10 + 1 / 2⌋.toNat : ℤ)) := by
  have hfl : 0 ≤ ⌊x * 10 + 1 / 2⌋ := Int.floor_nonneg.mpr (by positivity)
  have hcast : ((⌊x * 10 + 1 / 2⌋.toNat : ℕ) : ℤ) = ⌊x * 10 + 1 / 2⌋ := Int.toNat_of_nonneg hfl
  have hcastq : ((⌊x * 10 + 1 / 2⌋.toNat : ℕ) : ℚ) = ((⌊x * 10 + 1 / 2⌋ : ℤ) : ℚ) := by
    rw [← Int.cast_natCast, hcast]
  rw [hcastq, hcast]
  generalize hn : ⌊x * 10 + 1 / 2⌋ = n
  have h1 : (n : ℚ) ≤ x * 10 + 1 / 2 := by rw [← hn]; exact Int.floor_le _
  have h2 : x * 10 + 1 / 2 < (n : ℚ) + 1 := by rw [← hn]; exact Int.lt_floor_add_one _
  rcases lt_trichotomy m n with hlt | heq | hgt
  · have hm : (m : ℚ) + 1 ≤ n := by exact_mod_cast hlt
    refine ⟨?_, fun _ => hlt.le⟩
    rw [abs_le]
    have : (m : ℚ) / 10 - x ≤ 0 := by linarith
    rw [abs_of_nonpos this]
    constructor <;> linarith
  · subst heq
    exact ⟨le_refl _, fun _ => le_refl _⟩
  · have hm : (n : ℚ) + 1 ≤ m := by exact_mod_cast hgt
    have hpos : 0 < (m : ℚ) / 10 - x := by linarith
    rw [abs_of_pos hpos]
    constructor
    · rw [abs_le]
      constructor <;> linarith
    · intro he
      exfalso
      have hab : |(n : ℚ) / 10 - x| ≤ 1 / 20 := by
        rw [abs_le]
        constructor <;> linarith
      linarith

/-- Below `10^21` the result of `toFixed(1)` does not involve `Number::toString`. -/
theorem toFixed_one_indep (nts nts' : ℚ → String) (x : ℚ) (h0 : 0 ≤ x) (hlt : x < 10 ^ 21) :
    toFixed nts 1 x = toFixed nts' 1 x := by
  rw [toFixed_one nts x h0 hlt, toFixed_one nts' x h0 hlt]

theorem toFixed_42 (nts : ℚ → String) : toFixed nts 1 42 = "42.0" := by
  rw [toFixed_one_indep nts integerToString 42 (by norm_num) (by norm_num)]
  decide!

theorem toFixed_87_25 (nts : ℚ → String) : toFixed nts 1 (349 / 4) = "87.3" := by
  rw [toFixed_one_indep nts integerToString _ (by norm_num) (by norm_num)]
  decide!

theorem toFixed_25_6 (nts : ℚ → String) : toFixed nts 1 (32 / 125 * 100) = "25.6" := by
  rw [toFixed_one_indep nts integerToString _ (by norm_num) (by norm_num)]
  decide!

/-! ## Quality score -/

/-- C1, counterexample. With `overall_score` present and equal to `0` and an ML
quality score of `42`, the score selected is `42`, not `overall_score`, and the
text written is `42.0`. -/
theorem qualityScore_zero_counterexample :
    zeroScoreResponse.overall_score = some 0 ∧
    qualityScore zeroScoreResponse = 42 ∧
    (displayResults integerToString zeroScoreResponse blankPage).1.content .qualityScore =
      "42.0" := by
  refine ⟨rfl, by decide!, ?_⟩
  rw [displayResults_qualityScore]
  decide!

/-- C1, amended. The quality score selected by `displayResults` is
`overall_score` when that is present and not zero; otherwise
`ml_prediction.quality_score` when that is present and not zero; otherwise `0`.
The text written to the quality score region is that value formatted by
`toFixed(1)`; with `overall_score` absent and `ml_prediction.quality_score = 42`
it is `42.0`. -/
theorem qualityScore_selection (nts : ℚ → String) (data : AnalysisResponse) (p : Page) :
    (∀ x, data.overall_score = some x → x ≠ 0 → qualityScore data = x) ∧
    ((data.overall_score = none ∨ data.overall_score = some 0) →
      ∀ ml y, data.ml_prediction = some ml → ml.quality_score = some y → y ≠ 0 →
        qualityScore data = y) ∧
    ((data.overall_score = none ∨ data.overall_score = some 0) →
      (data.ml_prediction = none ∨
        ∃ ml, data.ml_prediction = some ml ∧
          (ml.quality_score = none ∨ ml.quality_score = some 0)) →
      qualityScore data = 0) ∧
    (displayResults nts data p).1.content .qualityScore = toFixed nts 1 (qualityScore data) ∧
    (data.overall_score = none →
      ∀ ml, data.ml_prediction = some ml → ml.quality_score = some 42 →
        (displayResults nts data p).1.content .qualityScore = "42.0") := by
  have hfalsy : (data.overall_score = none ∨ data.overall_score = some 0) →
      numTruthy data.overall_score = false := by
    rintro (h | h) <;> simp [h, numTruthy]
  refine ⟨?_, ?_, ?_, displayResults_qualityScore nts data p, ?_⟩
  · intro x hx hne
    simp [qualityScore, scoreOperand, hx, numTruthy, hne]
  · intro h ml y hml hy hne
    simp [qualityScore, scoreOperand, hfalsy h, hml, hy, hne]
  · intro h hml
    rcases hml with hml | ⟨ml, hml, hq | hq⟩
    · simp [qualityScore, scoreOperand, hfalsy h, hml]
    · simp [qualityScore, scoreOperand, hfalsy h, hml, hq]
    · simp [qualityScore, scoreOperand, hfalsy h, hml, hq]
  · intro h ml hml hy
    rw [displayResults_qualityScore]
    have : qualityScore data = 42 := by
      simp [qualityScore, scoreOperand, hfalsy (Or.inl h), hml, hy]
    rw [this, toFixed_42]

/-- C1, worked example: `overall_score = 87.25` is selected and written as
`87.3`. -/
theorem qualityScore_selection_witness :
    qualityScore sampleResponse = 349 / 4 :=
  (qualityScore_selection integerToString sampleResponse blankPage).1 (349 / 4) rfl
    (by norm_num)

/-! ## Metrics and ML prediction blocks -/

/-- C2, evaluation at the failing input. For the prediction
`needs_major_improvement` the label written into the ML prediction block is
`needs major_improvement`: only the first underscore has become a space. -/
theorem prediction_label_keeps_underscore :
    replaceUnderscore "needs_major_improvement" = "needs major_improvement" ∧
    '_' ∈ (replaceUnderscore "needs_major_improvement").data ∧
    (displayResults integerToString sampleResponse blankPage).1.content .mlPrediction =
      "<li><strong>Quality Score:</strong> 85/100</li>" ++
      "<li><strong>Prediction:</strong> needs major_improvement</li>" ++
      "<li><strong>Confidence:</strong> 92%</li>" ++
      "<li><strong>Grade:</strong> B</li>" ++
      "<li><strong>Avg Complexity:</strong> 3</li>" ++
      "<li><strong>Maintainability:</strong> 70</li>" := by
  refine ⟨by decide, by decide, ?_⟩
  decide!

/-- C3. The metrics block and the ML prediction block follow the same test of
`metrics.error`. When `metrics.error` is set (present and not the empty string),
the metrics block is the single line holding `error` and `message` and the ML
block is its four lines.  Otherwise the metrics block is the six lines lines of
code, logical lines, comments, comment ratio, functions, classes, and the ML
block is six lines ending with average complexity and maintainability index. -/
theorem metrics_ml_same_branch (nts : ℚ → String) (data : AnalysisResponse) (p : Page)
    (m : Metrics) (ml : MlPrediction) (pred : String)
    (hm : data.metrics = some m) (hml : data.ml_prediction = some ml)
    (hp : ml.prediction = some pred) :
    (∀ e, m.error = some e → e ≠ "" →
      metricsHtml nts m =
        ["<li style=\"color: red;\">❌ " ++ e ++ ": " ++ tplStr m.message ++ "</li>"] ∧
      (displayResults nts data p).1.content .codeMetrics = join (metricsHtml nts m) ∧
      e.data <:+: (join (metricsHtml nts m)).data ∧
      (tplStr m.message).data <:+: (join (metricsHtml nts m)).data ∧
      (displayResults nts data p).1.content .mlPrediction = join
        ["<li><strong>Quality Score:</strong> " ++ tplNum nts ml.quality_score ++ "/100</li>",
         "<li><strong>Prediction:</strong> " ++ replaceUnderscore pred ++ "</li>",
         "<li><strong>Confidence:</strong> " ++ tplNum nts ml.confidence ++ "%</li>",
         "<li><strong>Grade:</strong> " ++ tplStr ml.rating ++ "</li>"]) ∧
    ((m.error = none ∨ m.error = some "") →
      (displayResults nts data p).1.content .codeMetrics = join
        ["<li><strong>Lines of Code:</strong> " ++ tplNum nts m.lines_of_code ++ "</li>",
         "<li><strong>Logical Lines:</strong> " ++ tplNum nts m.logical_lines ++ "</li>",
         "<li><strong>Comments:</strong> " ++ tplNum nts m.comments ++ "</li>",
         "<li><strong>Comment Ratio:</strong> " ++ commentRatioText nts m.comment_ratio ++
           "%</li>",
         "<li><strong>Functions:</strong> " ++ tplNum nts m.num_functions ++ "</li>",
         "<li><strong>Classes:</strong> " ++ tplNum nts m.num_classes ++ "</li>"] ∧
      (displayResults nts data p).1.content .mlPrediction = join
        ["<li><strong>Quality Score:</strong> " ++ tplNum nts ml.quality_score ++ "/100</li>",
         "<li><strong>Prediction:</strong> " ++ replaceUnderscore pred ++ "</li>",
         "<li><strong>Confidence:</strong> " ++ tplNum nts ml.confidence ++ "%</li>",
         "<li><strong>Grade:</strong> " ++ tplStr ml.rating ++ "</li>",
         "<li><strong>Avg Complexity:</strong> " ++ tplNum nts m.avg_complexity ++ "</li>",
         "<li><strong>Maintainability:</strong> " ++ tplNum nts m.maintainability_index ++
           "</li>"]) := by
  have hcm := displayResults_codeMetrics nts data p m hm
  have hmlp := displayResults_mlPrediction nts data p m ml _ hm hml (mlHtml_ok nts ml m pred hp)
  constructor
  · intro e he hne
    have ht : strTruthy m.error = true := by simp [strTruthy, he, hne]
    have hlines : metricsHtml nts m =
        ["<li style=\"color: red;\">❌ " ++ e ++ ": " ++ tplStr m.message ++ "</li>"] := by
      unfold metricsHtml
      rw [if_pos ht, he]
      rfl
    refine ⟨hlines, hcm, ?_, ?_, ?_⟩
    · rw [hlines]
      refine ⟨"<li style=\"color: red;\">❌ ".data, (": " ++ tplStr m.message ++ "</li>").data, ?_⟩
      simp [join]
    · rw [hlines]
      refine ⟨("<li style=\"color: red;\">❌ " ++ e ++ ": ").data, "</li>".data, ?_⟩
      simp [join]
    · rw [hmlp]
      simp [ht]
  · intro he
    have ht : strTruthy m.error = false := by
      rcases he with he | he <;> simp [strTruthy, he]
    constructor
    · rw [hcm]
      simp [metricsHtml, ht]
    · rw [hmlp]
      simp [ht]

/-- C3, worked example: the error shape `ParseError` / `bad syntax`. -/
theorem metrics_ml_same_branch_witness :
    (displayResults integerToString errorShapeResponse blankPage).1.content .codeMetrics =
      "<li style=\"color: red;\">❌ ParseError: bad syntax</li>" ∧
    (displayResults integerToString errorShapeResponse blankPage).1.content .mlPrediction =
      "<li><strong>Quality Score:</strong> 85/100</li>" ++
      "<li><strong>Prediction:</strong> needs major_improvement</li>" ++
      "<li><strong>Confidence:</strong> 92%</li>" ++
      "<li><strong>Grade:</strong> B</li>" :=
  have h := (metrics_ml_same_branch integerToString errorShapeResponse blankPage _ _ _
    rfl rfl rfl).1 "ParseError" rfl (by decide)
  ⟨h.2.1.trans (by decide), h.2.2.2.2.trans (by decide!)⟩

/-! ## Suggestions and code smells -/

theorem foldl_append_eq (xs : List String) (a : String) :
    xs.foldl (fun acc x => acc ++ x) a = a ++ xs.foldl (fun acc x => acc ++ x) "" := by
  induction xs generalizing a with
  | nil => simp
  | cons x xs ih =>
    simp only [List.foldl_cons]
    rw [ih (a ++ x), ih ("" ++ x)]
    simp [String.append_assoc]

theorem join_nil : join [] = "" := rfl

theorem join_cons (x : String) (xs : List String) : join (x :: xs) = x ++ join xs := by
  unfold join
  simp only [List.foldl_cons]
  rw [foldl_append_eq]
  simp

theorem suggestionsMarkup_nil :
    suggestionsMarkup [] = "<li>No suggestions - looks good!</li>" := by
  decide

theorem suggestionsMarkup_cons (x : String) (xs : List String) :
    suggestionsMarkup (x :: xs) = join (suggestionItems (x :: xs)) := by
  have hne : join (suggestionItems (x :: xs)) ≠ "" := by
    intro h
    have := congrArg String.data h
    simp [suggestionItems, join_cons] at this
  simp [suggestionsMarkup, hne]

/-- The joined items of a non-empty sequence are the placeholder markup only for
the one-entry sequence holding the placeholder's own text. -/
theorem suggestionItems_eq_placeholder (x : String) (xs : List String)
    (h : join (suggestionItems (x :: xs)) = "<li>No suggestions - looks good!</li>") :
    x :: xs = ["No suggestions - looks good!"] := by
  have hd := congrArg String.data h
  cases xs with
  | nil =>
    simp only [suggestionItems, List.map_cons, List.map_nil, join_cons, join_nil,
      String.data_append] at hd
    have h1 : x.data ++ "</li>".data = "No suggestions - looks good!".data ++ "</li>".data := by
      simpa using hd
    have h2 := List.append_cancel_right h1
    rw [String.ext h2]
  | cons y ys =>
    exfalso
    simp only [suggestionItems, List.map_cons, join_cons, String.data_append] at hd
    have hc := congrArg (List.count '<') hd
    simp only [List.count_append] at hc
    have e1 : List.count '<' "<li>".data = 1 := by decide
    have e2 : List.count '<' "</li>".data = 1 := by decide
    have e3 : List.count '<' "<li>No suggestions - looks good!</li>".data = 2 := by decide
    rw [e1, e2, e3] at hc
    omega

/-- C7, counterexample. The one-entry sequence whose text is the placeholder's
text is not empty, yet the suggestions block is exactly the placeholder item. -/
theorem suggestions_placeholder_counterexample :
    suggestionsMarkup ["No suggestions - looks good!"] =
      "<li>No suggestions - looks good!</li>" ∧
    (["No suggestions - looks good!"] : List String) ≠ [] ∧
    (displayResults integerToString
        { sampleResponse with suggestions := some ["No suggestions - looks good!"] }
        blankPage).1.content .suggestions =
      (displayResults integerToString { sampleResponse with suggestions := some [] }
        blankPage).1.content .suggestions := by
  refine ⟨by decide, by decide, ?_⟩
  rw [(displayResults_finished integerToString _ blankPage _ _ _ _ rfl rfl rfl rfl).1,
    (displayResults_finished integerToString _ blankPage _ _ _ _ rfl rfl rfl rfl).1]
  decide

/-- C7, amended. The suggestions block written by `displayResults` is, for a
non-empty sequence, the list items of its entries joined in the given order, one
item `<li>text</li>` per entry (also for empty texts); for the empty sequence it
is exactly the placeholder item.  The block equals the placeholder item exactly
when the sequence is empty or is the one entry `No suggestions - looks good!`. -/
theorem suggestions_block (nts : ℚ → String) (data : AnalysisResponse) (p : Page)
    (m : Metrics) (ml : MlPrediction) (pred : String) (sugg : List String)
    (hm : data.metrics = some m) (hml : data.ml_prediction = some ml)
    (hp : ml.prediction = some pred) (hs : data.suggestions = some sugg) :
    (sugg ≠ [] →
      (displayResults nts data p).1.content .suggestions = join (suggestionItems sugg)) ∧
    suggestionItems sugg = sugg.map (fun s => "<li>" ++ s ++ "</li>") ∧
    (suggestionItems sugg).length = sugg.length ∧
    (sugg = [] →
      (displayResults nts data p).1.content .suggestions =
        "<li>No suggestions - looks good!</li>") ∧
    ((displayResults nts data p).1.content .suggestions =
        "<li>No suggestions - looks good!</li>" ↔
      sugg = [] ∨ sugg = ["No suggestions - looks good!"]) := by
  rw [(displayResults_finished nts data p m ml pred sugg hm hml hp hs).1]
  refine ⟨?_, rfl, by simp [suggestionItems], ?_, ?_⟩
  · intro hne
    cases sugg with
    | nil => exact absurd rfl hne
    | cons x xs => exact suggestionsMarkup_cons x xs
  · rintro rfl
    exact suggestionsMarkup_nil
  · cases sugg with
    | nil => simp [suggestionsMarkup_nil]
    | cons x xs =>
      rw [suggestionsMarkup_cons]
      constructor
      · intro h
        exact Or.inr (suggestionItems_eq_placeholder x xs h)
      · rintro (h | h)
        · cases h
        · rw [h]
          decide

/-- C7, worked example: two suggestions, the second one empty. -/
theorem suggestions_block_witness :
    (displayResults integerToString sampleResponse blankPage).1.content .suggestions =
      "<li>Add docstrings</li><li></li>" :=
  ((suggestions_block integerToString sampleResponse blankPage _ _ _ _ rfl rfl rfl rfl).1
    (by decide)).trans (by decide)

/-- C8. The code-smells block written by `displayResults` comes from
`metrics.code_smells`, a missing field counting as the empty sequence: for a
non-empty sequence it is the warning lines of its entries joined in the given
order, one line per entry; for an empty or missing sequence it is exactly the
placeholder line. -/
theorem codeSmells_block (nts : ℚ → String) (data : AnalysisResponse) (p : Page)
    (m : Metrics) (ml : MlPrediction) (pred : String) (sugg : List String)
    (hm : data.metrics = some m) (hml : data.ml_prediction = some ml)
    (hp : ml.prediction = some pred) (hs : data.suggestions = some sugg) :
    (∀ smells, m.code_smells = some smells → smells ≠ [] →
      (displayResults nts data p).1.content .codeSmells = join (smellItems smells) ∧
      smellItems smells = smells.map (fun s => "<li>⚠️ " ++ s ++ "</li>") ∧
      (smellItems smells).length = smells.length) ∧
    ((m.code_smells = none ∨ m.code_smells = some []) →
      (displayResults nts data p).1.content .codeSmells =
        "<li>✅ No code smells detected!</li>") ∧
    (m.code_smells = some ["long function", "deep nesting"] →
      (displayResults nts data p).1.content .codeSmells =
        join ["<li>⚠️ long function</li>", "<li>⚠️ deep nesting</li>"]) := by
  rw [(displayResults_finished nts data p m ml pred sugg hm hml hp hs).2.1]
  refine ⟨?_, ?_, ?_⟩
  · intro smells hsm hne
    have hlen : smells.length > 0 := List.length_pos.mpr hne
    refine ⟨?_, rfl, by simp [smellItems]⟩
    simp [smellsHtml, hsm, hlen]
  · rintro (h | h) <;> simp [smellsHtml, h]
  · intro h
    simp [smellsHtml, h, smellItems]

/-- C8, worked example: the smells `long function` and `deep nesting`. -/
theorem codeSmells_block_witness :
    (displayResults integerToString sampleResponse blankPage).1.content .codeSmells =
      "<li>⚠️ long function</li><li>⚠️ deep nesting</li>" :=
  ((codeSmells_block integerToString sampleResponse blankPage _ _ _ _ rfl rfl rfl rfl).2.2
    rfl).trans (by decide)

/-! ## One-decimal formatting of the score and the comment ratio -/

theorem roundHalfEven_nonneg (q : ℚ) (h : 0 ≤ q) : 0 ≤ roundHalfEven q := by
  have hf : 0 ≤ ⌊q⌋ := Int.floor_nonneg.mpr h
  unfold roundHalfEven
  simp only
  split_ifs <;> omega

/-- Rounding to binary64 keeps a non-negative value non-negative. -/
theorem toDouble_nonneg (q v : ℚ) (h0 : 0 ≤ q) (h : toDouble q = some v) : 0 ≤ v := by
  unfold toDouble at h
  have hneg : ¬ q < 0 := not_lt.mpr h0
  simp only [hneg, if_false] at h
  have hr : 0 ≤ roundHalfEven (|q| / 2 ^ max (floorLog2 |q| - 52) (-1074)) :=
    roundHalfEven_nonneg _ (div_nonneg (abs_nonneg q) (by positivity))
  have hr' : (0 : ℚ) ≤ (roundHalfEven (|q| / 2 ^ max (floorLog2 |q| - 52) (-1074)) : ℚ) := by
    exact_mod_cast hr
  split_ifs at h with hq hbig
  · cases h; exact le_refl _
  · cases h
    exact mul_nonneg hr' (by positivity)

theorem commentRatioText_eq (nts : ℚ → String) (r v : ℚ) (h : toDouble (r * 100) = some v) :
    commentRatioText nts (some r) = toFixed nts 1 v := by
  simp [commentRatioText, h]

theorem toDouble_0256 :
    toDouble 0.256 = some (1152921504606847 / 4503599627370496) := by decide!

theorem toDouble_0256_product :
    toDouble (1152921504606847 / 4503599627370496 * 100) =
      some (3602879701896397 / 140737488355328) := by decide!

theorem toDouble_01225 :
    toDouble 0.1225 = some (2206763817411543 / 18014398509481984) := by decide!

theorem toDouble_01225_product :
    toDouble (2206763817411543 / 18014398509481984 * 100) = some (49 / 4) := by decide!

theorem toDouble_6015 :
    toDouble 60.15 = some (8465359924572979 / 140737488355328) := by decide!

theorem toFixed_of_eq (nts : ℚ → String) (x : ℚ) (t : String) (h0 : 0 ≤ x) (hlt : x < 10 ^ 21)
    (h : toFixed integerToString 1 x = t) : toFixed nts 1 x = t := by
  rw [toFixed_one_indep nts integerToString x h0 hlt, h]

/-- C9, counterexample. At the non-negative value `10^21` the result of
`toFixed(1)` is `Number::toString` of the value, in JavaScript the text `1e+21`,
which has no decimal point; `displayResults` writes it as the quality score.
And for the comment ratio `r` that is the binary64 number nearest to `0.1225`,
the exact product `r * 100` lies below `12.25` and formats as `12.2`, while the
script formats the binary64 product, which is `12.25`, and writes `12.3`. -/
theorem toFixed_large_counterexample :
    (0 : ℚ) ≤ 10 ^ 21 ∧
    (∀ nts : ℚ → String, toFixed nts 1 (10 ^ 21) = nts (10 ^ 21)) ∧
    toFixed (fun _ => "1e+21") 1 (10 ^ 21) = "1e+21" ∧
    '.' ∉ "1e+21".data ∧
    (displayResults (fun _ => "1e+21") { sampleResponse with overall_score := some (10 ^ 21) }
      blankPage).1.content .qualityScore = "1e+21" ∧
    toDouble 0.1225 = some (2206763817411543 / 18014398509481984) ∧
    (2206763817411543 / 18014398509481984 * 100 : ℚ) < 49 / 4 ∧
    (∀ nts : ℚ → String,
      toFixed nts 1 (2206763817411543 / 18014398509481984 * 100) = "12.2" ∧
      commentRatioText nts (some (2206763817411543 / 18014398509481984)) = "12.3") := by
  have h : ∀ nts : ℚ → String, toFixed nts 1 (10 ^ 21) = nts (10 ^ 21) := by
    intro nts
    have h1 : ¬ ((10 : ℚ) ^ 21 < 0) := by norm_num
    simp [toFixed, h1]
  refine ⟨by norm_num, h, h _, by decide, ?_, toDouble_01225, by norm_num, ?_⟩
  · rw [displayResults_qualityScore]
    have hq : qualityScore { sampleResponse with overall_score := some (10 ^ 21) } = 10 ^ 21 := by
      simp [qualityScore, scoreOperand, numTruthy]
    rw [hq, h]
  · intro nts
    constructor
    · exact toFixed_of_eq nts _ _ (by norm_num) (by norm_num) (by decide!)
    · rw [commentRatioText_eq nts _ _ toDouble_01225_product]
      exact toFixed_of_eq nts _ _ (by norm_num) (by norm_num) (by decide!)

/-- C9, amended. For every exact value `x` with `0 ≤ x < 10^21`, `toFixed(1)`
gives the decimal digits of a natural number, a point and exactly one more
digit; the value written is `n / 10` for the integer `n` that makes `n / 10` as
close to `x` as possible, the larger one in a tie.  `displayResults` writes the
quality score in this format (87.25 gives `87.3`, 42 gives `42.0`; the binary64
number nearest to 60.15 lies below it and gives `60.1`).  A success-shape comment
ratio `r` is written as the binary64 product of `r` and `100`, which is the
exact product rounded to binary64 and is not negative for `r ≥ 0`, in this
format followed by `%`: the binary64 number nearest to 0.256 gives `25.6%`. -/
theorem one_decimal_formatting (nts : ℚ → String) :
    (∀ x : ℚ, 0 ≤ x → x < 10 ^ 21 →
      ∃ n : ℕ,
        toFixed nts 1 x = ⟨natToString (n / 10) ++ '.' :: [Nat.digitChar (n % 10)]⟩ ∧
        (∀ c ∈ natToString (n / 10), c.isDigit = true) ∧
        (Nat.digitChar (n % 10)).isDigit = true ∧
        (digitsValue (natToString (n / 10)) : ℚ) +
          (digitsValue [Nat.digitChar (n % 10)] : ℚ) / 10 = (n : ℚ) / 10 ∧
        ∀ m : ℤ, |(n : ℚ) / 10 - x| ≤ |(m : ℚ) / 10 - x| ∧
          (|(m : ℚ) / 10 - x| = |(n : ℚ) / 10 - x| → m ≤ (n : ℤ))) ∧
    (∀ (data : AnalysisResponse) (p : Page),
      (displayResults nts data p).1.content .qualityScore =
        toFixed nts 1 (qualityScore data)) ∧
    (∀ (data : AnalysisResponse) (p : Page) (m : Metrics) (r : ℚ),
      data.metrics = some m → (m.error = none ∨ m.error = some "") →
      m.comment_ratio = some r →
      (displayResults nts data p).1.content .codeMetrics = join (metricsHtml nts m) ∧
      (metricsHtml nts m)[3]? =
        some ("<li><strong>Comment Ratio:</strong> " ++ commentRatioText nts (some r) ++
          "%</li>") ∧
      ∀ v, toDouble (r * 100) = some v →
        commentRatioText nts (some r) = toFixed nts 1 v ∧ (0 ≤ r → 0 ≤ v)) ∧
    toFixed nts 1 87.25 = "87.3" ∧ toFixed nts 1 42 = "42.0" ∧
    (toDouble 60.15 = some (8465359924572979 / 140737488355328) ∧
      toFixed nts 1 (8465359924572979 / 140737488355328) = "60.1") ∧
    (toDouble 0.256 = some (1152921504606847 / 4503599627370496) ∧
      toDouble (1152921504606847 / 4503599627370496 * 100) =
        some (3602879701896397 / 140737488355328) ∧
      commentRatioText nts (some (1152921504606847 / 4503599627370496)) ++ "%" = "25.6%") := by
  refine ⟨?_, displayResults_qualityScore nts, ?_, ?_, toFixed_42 nts, ⟨toDouble_6015, ?_⟩,
    ⟨toDouble_0256, toDouble_0256_product, ?_⟩⟩
  · intro x h0 hlt
    refine ⟨⌊x * 10 + 1 / 2⌋.toNat, toFixed_one nts x h0 hlt, (natToString_digits _).1,
      (digitChar_isDigit _ (Nat.mod_lt _ (by norm_num))).1, ?_, ?_⟩
    · generalize ⌊x * 10 + 1 / 2⌋.toNat = n
      rw [(natToString_digits _).2]
      have hd : digitsValue [Nat.digitChar (n % 10)] = n % 10 := by
        simp [digitsValue, (digitChar_isDigit _ (Nat.mod_lt n (by norm_num : 0 < 10))).2]
      rw [hd]
      have hn : ((n / 10 : ℕ) : ℚ) * 10 + ((n % 10 : ℕ) : ℚ) = (n : ℚ) := by
        exact_mod_cast (by omega : n / 10 * 10 + n % 10 = n)
      rw [← hn]
      ring
    · intro m
      have := nearest_tenth x h0 m
      exact_mod_cast this
  · intro data p m r hm he hr
    have ht : strTruthy m.error = false := by
      rcases he with he | he <;> simp [strTruthy, he]
    refine ⟨displayResults_codeMetrics nts data p m hm, ?_, ?_⟩
    · simp [metricsHtml, ht, hr]
    · intro v hv
      exact ⟨commentRatioText_eq nts r v hv,
        fun h0 => toDouble_nonneg _ v (by positivity) hv⟩
  · have : (87.25 : ℚ) = 349 / 4 := by norm_num
    rw [this, toFixed_87_25]
  · exact toFixed_of_eq nts _ _ (by norm_num) (by norm_num) (by decide!)
  · rw [commentRatioText_eq nts _ _ toDouble_0256_product,
      toFixed_of_eq nts _ "25.6" (by norm_num) (by norm_num) (by decide!)]
    decide

/-- C9, worked example: the value `0.25` lies between two tenths and is written
with one decimal; the sample response's comment ratio, the binary64 number
nearest to `0.256`, is written as `25.6`. -/
theorem one_decimal_formatting_witness :
    (∃ n : ℕ, toFixed integerToString 1 (1 / 4) =
      ⟨natToString (n / 10) ++ '.' :: [Nat.digitChar (n % 10)]⟩) ∧
    commentRatioText integerToString (some (1152921504606847 / 4503599627370496)) =
      toFixed integerToString 1 (3602879701896397 / 140737488355328) ∧
    (0 : ℚ) ≤ 3602879701896397 / 140737488355328 :=
  have h := ((one_decimal_formatting integerToString).2.2.1 sampleResponse blankPage _
      (1152921504606847 / 4503599627370496) rfl (Or.inl rfl) rfl).2.2
      (3602879701896397 / 140737488355328) toDouble_0256_product
  ⟨((one_decimal_formatting integerToString).1 (1 / 4) (by norm_num) (by norm_num)).imp
      fun _ h => h.1,
   h.1, h.2 (by norm_num)⟩

end AnalysisClient
